import Mathlib

/-!
Verification development for the assessment-scheduling engine
(src/src/utils/solver_v2.py and src/src/models/model.py).

The Python solver builds a CP-SAT model from a scenario request.  We embed,
in order:
  * the domain model (model.py),
  * the client materializer (Solver.__initialize_variables),
  * an abstract constraint language standing for the CP-SAT constraints the
    solver emits, together with a decidable satisfaction predicate,
  * the constraint-emitting helpers that the claims are about
    (check-in chain, transfer circuit pairs, same-room rules, the condition
    DSL dispatch, the MRI separation rule),
  * the status dispatch of Solver.generate and the transfer decoder.

Python string manipulation (upper/lower casing, substring containment,
integer parsing) is re-implemented over lists of characters so that every
definition evaluates inside the kernel.
-/

namespace HarleySolver

/-! ### Character-level string helpers (kernel-reducible) -/

/-- Lower-case a single ASCII character, as Python str.lower does on ASCII. -/
def charLower (c : Char) : Char :=
  if 'A' ≤ c ∧ c ≤ 'Z' then Char.ofNat (c.toNat + 32) else c

/-- Upper-case a single ASCII character, as Python str.upper does on ASCII. -/
def charUpper (c : Char) : Char :=
  if 'a' ≤ c ∧ c ≤ 'z' then Char.ofNat (c.toNat - 32) else c

/-- Python str.lower (ASCII fragment). -/
def strLower (s : String) : String := ⟨s.data.map charLower⟩

/-- Python str.upper (ASCII fragment). -/
def strUpper (s : String) : String := ⟨s.data.map charUpper⟩

/-- Whether pat occurs at the head of s. -/
def headMatch (pat s : List Char) : Bool := List.isPrefixOf pat s

/-- Python substring containment (the in operator on str). -/
def containsSub (s pat : List Char) : Bool :=
  match s with
  | [] => pat.isEmpty
  | _ :: rest => headMatch pat s || containsSub rest pat

/-- Python substring containment on String. -/
def strContains (s pat : String) : Bool := containsSub s.data pat.data

/-- Value of a decimal digit character. -/
def digitVal (c : Char) : Option Nat :=
  if '0' ≤ c ∧ c ≤ '9' then some (c.toNat - '0'.toNat) else none

/-- Parse a nonempty all-digit character list, as Python int() on a plain
decimal literal; anything else is a parse failure (ValueError). -/
def digitsToNat (cs : List Char) : Option Nat :=
  cs.foldl
    (fun acc c =>
      match acc, digitVal c with
      | some n, some d => some (n * 10 + d)
      | _, _ => none)
    (if cs.isEmpty then none else some 0)

/-- Python int() on a string (non-negative decimal fragment, which is the
only shape the scheduling inputs use for orders and minute counts). -/
def strToNat (s : String) : Option Nat := digitsToNat s.data

/-- Number of colon characters in a string: len(re.findall(r means colon, s)). -/
def countColons (s : String) : Nat := (s.data.filter (fun c => c = ':')).length

/-- Split a character list at colons (for strptime on H:M:S). -/
def splitColons (cs : List Char) : List (List Char) :=
  match cs with
  | [] => [[]]
  | c :: rest =>
    let r := splitColons rest
    if c = ':' then [] :: r
    else
      match r with
      | [] => [[c]]
      | g :: gs => (c :: g) :: gs

/-! ### Domain model (src/src/models/model.py) -/

/-- ClientType enumeration of model.py.  The source defines only OPTIMAL and
ULTIMATE; there is no CORE member. -/
inductive ClientType
  | OPTIMAL
  | ULTIMATE
deriving DecidableEq, Repr

/-- ClientMaritalType enumeration of model.py. -/
inductive ClientMaritalType
  | SINGLE
  | COUPLE
deriving DecidableEq, Repr

/-- ClientSex enumeration of model.py. -/
inductive ClientSex
  | MALE
  | FEMALE
deriving DecidableEq, Repr

/-- ResourceTypes enumeration of model.py. -/
inductive ResourceTypes
  | CLIENT
  | OTHER
deriving DecidableEq, Repr

/-- ResourceRoomTypes enumeration of model.py. -/
inductive ResourceRoomTypes
  | SINGLE_CLIENT_ROOM
  | DOUBLE_CLIENT_ROOM
  | DOUBLE_ACCESSIBLE
  | ULTRASOUND_ROOM
  | MRI_15T_ROOM
  | MRI_3T_ROOM
  | CARDIAC_ROOM
  | DOCTOR_ROOM
  | EYES_AND_EARS_ROOM
  | PHLEBOTOMY_ROOM
  | RADIOLOGY_ROOM
  | PURE_SPORTS_ROOM
deriving DecidableEq, Repr

/-- String value of a room type, as the .value attribute in model.py. -/
def ResourceRoomTypes.value : ResourceRoomTypes → String
  | .SINGLE_CLIENT_ROOM => "SINGLE_CLIENT_ROOM"
  | .DOUBLE_CLIENT_ROOM => "DOUBLE_CLIENT_ROOM"
  | .DOUBLE_ACCESSIBLE => "DOUBLE_ACCESSIBLE"
  | .ULTRASOUND_ROOM => "ULTRASOUND_ROOM"
  | .MRI_15T_ROOM => "MRI_1.5T_ROOM"
  | .MRI_3T_ROOM => "MRI_3T_ROOM"
  | .CARDIAC_ROOM => "CARDIAC_ROOM"
  | .DOCTOR_ROOM => "DOCTOR_ROOM"
  | .EYES_AND_EARS_ROOM => "EYES_AND_EARS_ROOM"
  | .PHLEBOTOMY_ROOM => "PHLEBOTOMY_ROOM"
  | .RADIOLOGY_ROOM => "RADIOLOGY_ROOM"
  | .PURE_SPORTS_ROOM => "PURE_SPORTS_ROOM"

/-- ConditionTypes enumeration of model.py. -/
inductive ConditionTypes
  | BEFORE
  | AFTER
  | BETWEEN
  | WITHIN
  | IN_FIXED_ORDER_AS
  | RIGHT_AFTER
deriving DecidableEq, Repr

/-- CriteriaTypes enumeration of model.py. -/
inductive CriteriaTypes
  | ACTIVITY
  | TIME
  | ORDER
deriving DecidableEq, Repr

/-- Resource record of model.py (creation metadata dropped; it never feeds
the scheduling logic). -/
structure Resource where
  deleted : Bool
  resource_id : String
  resource_name : String
  type : ResourceTypes
  room_type : ResourceRoomTypes
  location : Int
  available : Bool := true
deriving DecidableEq, Repr

/-- TimeAllocation record of model.py. -/
structure TimeAllocation where
  male : Option Int := none
  female : Option Int := none
  default_time : Option Int := none
deriving DecidableEq, Repr

/-- Activity record of model.py (activity_color and the condition counters
dropped; they never feed the scheduling logic). -/
structure Activity where
  deleted : Bool
  activity_id : String
  room_type : String
  resource_type : ResourceTypes
  activity_name : String
  is_gender_time_allocated : Bool := false
  enabled : Bool := true
  time_allocations : TimeAllocation := {}
deriving DecidableEq, Repr

/-- BetweenValues record of model.py. -/
structure BetweenValues where
  start : Option String := none
  endv : Option String := none
deriving DecidableEq, Repr

/-- Criteria record of model.py. -/
structure Criteria where
  criteria_type : CriteriaTypes
  between_values : BetweenValues
  value : Option String
deriving DecidableEq, Repr

/-- Condition record of model.py. -/
structure Condition where
  deleted : Bool
  condition_id : String
  activity_id : Option String
  assessment_id : String
  type : Option ConditionTypes
  enabled : Bool := true
  mandatory : Bool := false
  criteria : Criteria
deriving DecidableEq, Repr

/-- ClientCount record (ClientElite / ClientUltimate in model.py share this
shape). -/
structure ClientCount where
  single_male : Nat := 0
  single_female : Nat := 0
  couple_male_female : Nat := 0
  couple_male_male : Nat := 0
  couple_female_female : Nat := 0
deriving DecidableEq, Repr

/-- ScenarioActionData record of model.py: it has exactly the fields
out_order_rooms, client_elite and client_ultimate; there is no client_core
attribute. -/
structure ScenarioActionData where
  out_order_rooms : List String := []
  client_elite : ClientCount := {}
  client_ultimate : ClientCount := {}
deriving DecidableEq, Repr

/-- ClientScenario record of model.py (the mutable activities list is
produced by the decoder and is modelled separately). -/
structure ClientScenario where
  client_number : Nat
  client_type : ClientType
  type : ClientMaritalType
  sex : ClientSex
  single_client_no : Option Nat
  couple_client_no : Option Nat
deriving DecidableEq, Repr

/-! ### Client materializer (Solver.__initialize_variables) -/

/-- One element of the client_infos chain built at solver_v2.py:165-171:
(own sex, partner sex when a couple, marital type). -/
def ClientInfo : Type := ClientSex × Option ClientSex × ClientMaritalType

instance : DecidableEq ClientInfo := by
  unfold ClientInfo; infer_instance

instance : Inhabited ClientInfo := ⟨(ClientSex.MALE, none, ClientMaritalType.SINGLE)⟩

/-- The chain of candidate client infos rebuilt on every loop iteration
(solver_v2.py:165-171): single male, single female, couple male-male,
couple female-female, couple male-female, each with the remaining count as
multiplicity. -/
def clientInfos (c : ClientCount) : List ClientInfo :=
  List.replicate c.single_male (ClientSex.MALE, none, ClientMaritalType.SINGLE) ++
  List.replicate c.single_female (ClientSex.FEMALE, none, ClientMaritalType.SINGLE) ++
  List.replicate c.couple_male_male (ClientSex.MALE, some ClientSex.MALE, ClientMaritalType.COUPLE) ++
  List.replicate c.couple_female_female (ClientSex.FEMALE, some ClientSex.FEMALE, ClientMaritalType.COUPLE) ++
  List.replicate c.couple_male_female (ClientSex.MALE, some ClientSex.FEMALE, ClientMaritalType.COUPLE)

/-- num_clients of solver_v2.py:119-125: couples count twice. -/
def numClients (c : ClientCount) : Nat :=
  c.single_male + c.single_female +
    (c.couple_male_male * 2 + c.couple_female_female * 2 + c.couple_male_female * 2)

/-- Number of materializer loop iterations that actually pick a client info
(couples are picked once and emit two scenarios). -/
def numPicks (c : ClientCount) : Nat :=
  c.single_male + c.single_female +
    (c.couple_male_male + c.couple_female_female + c.couple_male_female)

/-- Counter decrement of solver_v2.py:268-281, keyed on the picked info. -/
def decrementCounts (c : ClientCount) (i : ClientInfo) : ClientCount :=
  if i.2.2 = ClientMaritalType.SINGLE then
    if i.1 = ClientSex.MALE then { c with single_male := c.single_male - 1 }
    else if i.1 = ClientSex.FEMALE then { c with single_female := c.single_female - 1 }
    else c
  else if i.2.2 = ClientMaritalType.COUPLE then
    if i.1 = ClientSex.MALE ∧ i.2.1 = some ClientSex.MALE then
      { c with couple_male_male := c.couple_male_male - 1 }
    else if i.1 = ClientSex.FEMALE ∧ i.2.1 = some ClientSex.FEMALE then
      { c with couple_female_female := c.couple_female_female - 1 }
    else if i.1 = ClientSex.MALE ∧ i.2.1 = some ClientSex.FEMALE then
      { c with couple_male_female := c.couple_male_female - 1 }
    else c
  else c

/-- ClientScenario construction at solver_v2.py:175-182. -/
def mkClientScenario (cid : Nat) (ct : ClientType) (i : ClientInfo) (coupleId : Nat) :
    ClientScenario :=
  { client_number := cid
    client_type := ct
    type := i.2.2
    sex := i.1
    single_client_no := if i.2.2 = ClientMaritalType.SINGLE then some cid else none
    couple_client_no := if i.2.2 = ClientMaritalType.COUPLE then some coupleId else none }

/-- Partner ClientScenario construction at solver_v2.py:183-190 (sex s2 is
client_info 1, id is client_id + 1). -/
def mkOtherClientScenario (cid : Nat) (ct : ClientType) (i : ClientInfo) (s2 : ClientSex)
    (coupleId : Nat) : ClientScenario :=
  { client_number := cid + 1
    client_type := ct
    type := i.2.2
    sex := s2
    single_client_no := if i.2.2 = ClientMaritalType.SINGLE then some (cid + 1) else none
    couple_client_no := if i.2.2 = ClientMaritalType.COUPLE then some coupleId else none }

/-- The activity_type namedtuple of solver_v2.py:50 (one candidate
(activity, room) mode of a slot). -/
structure ActivityMode where
  duration : Option Int
  id : String
  room_id : String
  room_floor : Int
  client_id : Nat
  client_sex : ClientSex
  client_type : ClientType
  client_marital_type : ClientMaritalType
deriving DecidableEq, Repr

/-- Duration selection at solver_v2.py:223-225: the default time, or the
gender-specific allocation when is_gender_time_allocated. -/
def allocatedDuration (a : Activity) (sex : ClientSex) : Option Int :=
  if a.is_gender_time_allocated then
    match sex with
    | ClientSex.MALE => a.time_allocations.male
    | ClientSex.FEMALE => a.time_allocations.female
  else a.time_allocations.default_time

/-- Room type key used to index the rooms map (solver_v2.py:211): the
activity's own room type for OTHER resources, the CLIENT bucket otherwise. -/
def roomTypeKey (a : Activity) : String :=
  if a.resource_type = ResourceTypes.OTHER then a.room_type else "CLIENT"

/-- Room loop of solver_v2.py:216-258 restricted to which rooms are offered:
break once room_count reaches doctors_on_duty for doctor-room slots, skip
SINGLE_CLIENT rooms for couples, count every offered room. -/
def selectRooms (numDoctors : Nat) (isDoctorType : Bool) (marital : ClientMaritalType) :
    List Resource → Nat → List Resource
  | [], _ => []
  | r :: rs, cnt =>
    if numDoctors ≤ cnt ∧ isDoctorType then []
    else if r.room_type = ResourceRoomTypes.SINGLE_CLIENT_ROOM ∧
        marital = ClientMaritalType.COUPLE then
      selectRooms numDoctors isDoctorType marital rs cnt
    else r :: selectRooms numDoctors isDoctorType marital rs (cnt + 1)

/-- Modes contributed by one underlying activity of a slot
(solver_v2.py:204-258), paired with the partner's mode when the client is
the first of a couple. -/
def modesForActivity (numDoctors : Nat) (roomsMap : String → List Resource) (cid : Nat)
    (sexSelf : ClientSex) (sexOther : Option ClientSex) (ct : ClientType)
    (marital : ClientMaritalType) (a : Activity) :
    List (ActivityMode × Option ActivityMode) :=
  if a.deleted then []
  else if ¬ a.enabled then []
  else
    let rtKey := roomTypeKey a
    let rooms := selectRooms numDoctors (rtKey = "DOCTOR_ROOM") marital (roomsMap rtKey) 0
    rooms.map fun r =>
      ({ duration := allocatedDuration a sexSelf
         id := a.activity_id
         room_id := r.resource_id
         room_floor := r.location
         client_id := cid
         client_sex := sexSelf
         client_type := ct
         client_marital_type := marital },
       sexOther.map fun s2 =>
        { duration := allocatedDuration a s2
          id := a.activity_id
          room_id := r.resource_id
          room_floor := r.location
          client_id := cid + 1
          client_sex := s2
          client_type := ct
          client_marital_type := marital })

/-- One slot of a client schedule: the list of candidate modes. -/
abbrev Slot := List ActivityMode

/-- One client schedule: the slots in assessment activity-list order. -/
abbrev Schedule := List Slot

/-- Modes of one activity bucket for the client and (optionally) the partner
(the activity_rooms and other_activity_rooms lists of solver_v2.py:200-254). -/
def bucketModes (numDoctors : Nat) (roomsMap : String → List Resource) (cid : Nat)
    (sexSelf : ClientSex) (sexOther : Option ClientSex) (ct : ClientType)
    (marital : ClientMaritalType) (bucket : List Activity) : Slot × Slot :=
  let pairs := bucket.flatMap
    (modesForActivity numDoctors roomsMap cid sexSelf sexOther ct marital)
  (pairs.map Prod.fst, pairs.filterMap Prod.snd)

/-- Schedule pair of one materializer iteration (solver_v2.py:196-262):
the client schedule keeps every bucket, the partner schedule keeps only
nonempty buckets (the len > 0 guard at line 261). -/
def buildSchedulePair (numDoctors : Nat) (roomsMap : String → List Resource) (cid : Nat)
    (sexSelf : ClientSex) (sexOther : Option ClientSex) (ct : ClientType)
    (marital : ClientMaritalType) (activityBuckets : List (List Activity)) :
    Schedule × Schedule :=
  let per := activityBuckets.map
    (bucketModes numDoctors roomsMap cid sexSelf sexOther ct marital)
  (per.map Prod.fst, (per.map Prod.snd).filter (fun l => !l.isEmpty))

/-- Mutable position of the materializer: next client id, next couple id,
and how many random draws have been consumed. -/
structure MatState where
  nextId : Nat
  coupleId : Nat
  choiceIx : Nat
deriving DecidableEq, Repr

/-- The per-assessment client loop of solver_v2.py:160-282.  The unseeded
random.choice at line 172 is modelled by an explicit draw oracle: draw k of
the run picks index (oracle k) mod (length of the chain).  The fuel
argument bounds the number of iterations; it is instantiated with
num_clients, which always suffices because every iteration consumes at
least one client id. -/
def materializeAssessment (oracle : Nat → Nat) (numDoctors : Nat)
    (roomsMap : String → List Resource) (ct : ClientType)
    (activityBuckets : List (List Activity)) :
    Nat → ClientCount → MatState → List ClientScenario × List Schedule × MatState
  | 0, _, st => ([], [], st)
  | fuel + 1, counts, st =>
    if numClients counts = 0 then ([], [], st)
    else
      let infos := clientInfos counts
      let info := infos.getD (oracle st.choiceIx % infos.length) default
      match info.2.1 with
      | none =>
        let scen := mkClientScenario st.nextId ct info st.coupleId
        let pair := buildSchedulePair numDoctors roomsMap st.nextId info.1 none ct
          info.2.2 activityBuckets
        let rest := materializeAssessment oracle numDoctors roomsMap ct activityBuckets
          fuel (decrementCounts counts info) ⟨st.nextId + 1, st.coupleId, st.choiceIx + 1⟩
        (scen :: rest.1, pair.1 :: rest.2.1, rest.2.2)
      | some s2 =>
        let scen := mkClientScenario st.nextId ct info st.coupleId
        let scen2 := mkOtherClientScenario st.nextId ct info s2 st.coupleId
        let pair := buildSchedulePair numDoctors roomsMap st.nextId info.1 (some s2) ct
          info.2.2 activityBuckets
        let rest := materializeAssessment oracle numDoctors roomsMap ct activityBuckets
          fuel (decrementCounts counts info) ⟨st.nextId + 2, st.coupleId + 1, st.choiceIx + 1⟩
        (scen :: scen2 :: rest.1,
         (pair.1 :: (if pair.2.isEmpty then [] else [pair.2])) ++ rest.2.1,
         rest.2.2)

/-- One run of the materializer for one assessment, with fuel num_clients
(the Python loop ranges over exactly num_clients client ids). -/
def runAssessment (oracle : Nat → Nat) (numDoctors : Nat)
    (roomsMap : String → List Resource) (ct : ClientType)
    (activityBuckets : List (List Activity)) (counts : ClientCount) (st : MatState) :
    List ClientScenario × List Schedule × MatState :=
  materializeAssessment oracle numDoctors roomsMap ct activityBuckets
    (numClients counts) counts st

/-! ### Assessment ordering and count lookup -/

/-- Worker for replace: a positive skip count means the tail of a matched
occurrence is still being consumed. -/
def replaceGo (pat rep : List Char) : List Char → Nat → List Char
  | [], _ => []
  | _ :: rest, skip + 1 => replaceGo pat rep rest skip
  | c :: rest, 0 =>
    if pat ≠ [] ∧ headMatch pat (c :: rest) then
      rep ++ replaceGo pat rep rest (pat.length - 1)
    else c :: replaceGo pat rep rest 0

/-- Replace every occurrence of pat by rep (leftmost, non-overlapping), as
Python str.replace. -/
def replaceSub (s pat rep : List Char) : List Char := replaceGo pat rep s 0

/-- Python str.replace on String. -/
def strReplace (s pat rep : String) : String := ⟨replaceSub s.data pat.data rep.data⟩

/-- Count attribute lookup of solver_v2.py:108-111: the attribute name is
client_ plus the lower-cased assessment name, with optimal rewritten to
elite; getattr on ScenarioActionData succeeds only for client_elite and
client_ultimate (there is no client_core field). -/
def getCountData (sad : ScenarioActionData) (assessmentName : String) :
    Except String ClientCount :=
  let attr := "client_" ++ strLower assessmentName
  let attr := if strContains attr "optimal" then strReplace attr "optimal" "elite" else attr
  if attr = "client_elite" then .ok sad.client_elite
  else if attr = "client_ultimate" then .ok sad.client_ultimate
  else .error ("AttributeError: ScenarioActionData object has no attribute " ++ attr)

/-- ClientType construction at solver_v2.py:174: ClientType(name.upper())
raises ValueError for names outside the two-member enumeration. -/
def clientTypeOfName (s : String) : Except String ClientType :=
  let u := strUpper s
  if u = "OPTIMAL" then .ok ClientType.OPTIMAL
  else if u = "ULTIMATE" then .ok ClientType.ULTIMATE
  else .error ("ValueError: " ++ u ++ " is not a valid ClientType")

/-- Solver.__get_assessment_priority (solver_v2.py:1257-1264).  OPTIMAL maps
to 0 and ULTIMATE to 1; every other name reaches the expression
m.ClientType.CORE.value, and since model.py's ClientType has no CORE member
that line raises AttributeError. -/
def getAssessmentPriority (name : String) : Except String Nat :=
  let n := strUpper name
  if n = "OPTIMAL" then .ok 0
  else if n = "ULTIMATE" then .ok 1
  else .error "AttributeError: type object ClientType has no attribute CORE"

/-- Stable insertion into a key-sorted list (ties keep original order, as
Python sorted). -/
def insertKeyed (x : String × Nat) : List (String × Nat) → List (String × Nat)
  | [] => [x]
  | y :: ys => if x.2 ≤ y.2 then x :: y :: ys else y :: insertKeyed x ys

/-- Stable sort by key, as Python sorted with a key function. -/
def sortKeyed : List (String × Nat) → List (String × Nat)
  | [] => []
  | x :: xs => insertKeyed x (sortKeyed xs)

/-- The assessments setter (solver_v2.py:1139-1149): sort the assessment
names by priority; the key function is evaluated on every name, so any
name outside OPTIMAL/ULTIMATE raises before sorting finishes. -/
def sortAssessmentNames (names : List String) : Except String (List String) := do
  let keyed ← names.mapM (fun n => do
    let p ← getAssessmentPriority n
    pure (n, p))
  pure ((sortKeyed keyed).map Prod.fst)

/-- One assessment as handed to the materializer: the dict key (upper-cased
name), the record's assessment_name, and its activity buckets. -/
structure AssessmentInput where
  name : String
  assessment_name : String
  activityBuckets : List (List Activity)

/-- Solver.__initialize_variables across assessments (solver_v2.py:102-284):
assessments are visited in sorted-dict order, an assessment with zero
clients is skipped, and previous_num_clients / couple_id / the random
stream carry over from one assessment to the next. -/
def initializeVariables (oracle : Nat → Nat) (numDoctors : Nat)
    (roomsMap : String → List Resource) (sad : ScenarioActionData) :
    List AssessmentInput → MatState →
    Except String (List ClientScenario × List Schedule)
  | [], _ => .ok ([], [])
  | a :: rest, st =>
    match getCountData sad a.name with
    | .error e => .error e
    | .ok counts =>
      if numClients counts = 0 then
        initializeVariables oracle numDoctors roomsMap sad rest st
      else
        match clientTypeOfName a.assessment_name with
        | .error e => .error e
        | .ok ct =>
          let r := runAssessment oracle numDoctors roomsMap ct a.activityBuckets counts st
          match initializeVariables oracle numDoctors roomsMap sad rest r.2.2 with
          | .error e => .error e
          | .ok rst => .ok (r.1 ++ rst.1, r.2.1 ++ rst.2)

/-! ### Materializer facts -/

/-- Number of materialized scenarios of a given sex and marital type. -/
def countSexType (l : List ClientScenario) (sex : ClientSex) (mar : ClientMaritalType) : Nat :=
  l.countP (fun s => s.sex == sex && s.type == mar)

/-- Number of couples in a count record. -/
def numCouples (c : ClientCount) : Nat :=
  c.couple_male_male + c.couple_female_female + c.couple_male_female

/-- A scenario list in which couples occupy adjacent positions with
consecutive client ids and a shared, locally fresh couple number. -/
inductive WellPaired : List ClientScenario → Prop
  | nil : WellPaired []
  | single (s : ClientScenario) (rest : List ClientScenario)
      (h : s.type = ClientMaritalType.SINGLE) (hn : s.couple_client_no = none)
      (hr : WellPaired rest) :
      WellPaired (s :: rest)
  | couple (s1 s2 : ClientScenario) (rest : List ClientScenario)
      (h1 : s1.type = ClientMaritalType.COUPLE) (h2 : s2.type = ClientMaritalType.COUPLE)
      (hid : s2.client_number = s1.client_number + 1)
      (hno : s1.couple_client_no = s2.couple_client_no)
      (hsome : s1.couple_client_no ≠ none)
      (hfresh : ∀ s ∈ rest, s.couple_client_no ≠ s1.couple_client_no)
      (hr : WellPaired rest) :
      WellPaired (s1 :: s2 :: rest)

/-- Modes in couple-client schedules never come from SINGLE_CLIENT rooms. -/
def NoSingleRoomsForCouples (rm : String → List Resource) (scheds : List Schedule) : Prop :=
  ∀ sched ∈ scheds, ∀ slot ∈ sched, ∀ mo ∈ slot,
    mo.client_marital_type = ClientMaritalType.COUPLE →
    ∃ r, (∃ k, r ∈ rm k) ∧ mo.room_id = r.resource_id ∧ mo.room_floor = r.location ∧
      r.room_type ≠ ResourceRoomTypes.SINGLE_CLIENT_ROOM

lemma length_clientInfos (c : ClientCount) : (clientInfos c).length = numPicks c := by
  simp [clientInfos, numPicks]
  omega

lemma numClients_eq_zero_iff (c : ClientCount) : numClients c = 0 ↔ numPicks c = 0 := by
  unfold numClients numPicks; omega

lemma mem_clientInfos (c : ClientCount) (i : ClientInfo) (h : i ∈ clientInfos c) :
    (i = (ClientSex.MALE, none, ClientMaritalType.SINGLE) ∧ 0 < c.single_male) ∨
    (i = (ClientSex.FEMALE, none, ClientMaritalType.SINGLE) ∧ 0 < c.single_female) ∨
    (i = (ClientSex.MALE, some ClientSex.MALE, ClientMaritalType.COUPLE) ∧
      0 < c.couple_male_male) ∨
    (i = (ClientSex.FEMALE, some ClientSex.FEMALE, ClientMaritalType.COUPLE) ∧
      0 < c.couple_female_female) ∨
    (i = (ClientSex.MALE, some ClientSex.FEMALE, ClientMaritalType.COUPLE) ∧
      0 < c.couple_male_female) := by
  simp only [clientInfos, List.mem_append, List.mem_replicate] at h
  rcases h with ((((⟨h1, h2⟩ | ⟨h1, h2⟩) | ⟨h1, h2⟩) | ⟨h1, h2⟩) | ⟨h1, h2⟩) <;>
    subst h2 <;> simp_all <;> omega

lemma chosen_mem (c : ClientCount) (k : Nat) (h : numClients c ≠ 0) :
    (clientInfos c).getD (k % (clientInfos c).length) default ∈ clientInfos c := by
  have hl : 0 < (clientInfos c).length := by
    rw [length_clientInfos]
    have := numClients_eq_zero_iff c
    omega
  have hk : k % (clientInfos c).length < (clientInfos c).length := Nat.mod_lt _ hl
  rw [List.getD_eq_getElem _ _ hk]
  exact List.getElem_mem hk

lemma selectRooms_mem (nd : Nat) (b : Bool) (m : ClientMaritalType) :
    ∀ (l : List Resource) (cnt : Nat) (r : Resource),
      r ∈ selectRooms nd b m l cnt →
      r ∈ l ∧ (m = ClientMaritalType.COUPLE →
        r.room_type ≠ ResourceRoomTypes.SINGLE_CLIENT_ROOM) := by
  intro l
  induction l with
  | nil => intro cnt r h; simp [selectRooms] at h
  | cons x xs ih =>
    intro cnt r h
    unfold selectRooms at h
    split_ifs at h with h1 h2
    · simp at h
    · rcases ih _ _ h with ⟨hmem, hns⟩
      exact ⟨List.mem_cons_of_mem _ hmem, hns⟩
    · rcases List.mem_cons.mp h with hx | hxs
      · subst hx
        exact ⟨List.mem_cons_self _ _, fun hm hs => h2 ⟨hs, hm⟩⟩
      · rcases ih _ _ hxs with ⟨hmem, hns⟩
        exact ⟨List.mem_cons_of_mem _ hmem, hns⟩

lemma modesForActivity_mem (nd : Nat) (rm : String → List Resource) (cid : Nat)
    (ss : ClientSex) (so : Option ClientSex) (ct : ClientType) (marital : ClientMaritalType)
    (a : Activity) (p : ActivityMode × Option ActivityMode)
    (hp : p ∈ modesForActivity nd rm cid ss so ct marital a) :
    ∃ r, r ∈ rm (roomTypeKey a) ∧
      p.1.room_id = r.resource_id ∧ p.1.room_floor = r.location ∧
      p.1.client_marital_type = marital ∧
      (marital = ClientMaritalType.COUPLE →
        r.room_type ≠ ResourceRoomTypes.SINGLE_CLIENT_ROOM) ∧
      (∀ mo2, p.2 = some mo2 → mo2.room_id = r.resource_id ∧ mo2.room_floor = r.location ∧
        mo2.client_marital_type = marital) := by
  unfold modesForActivity at hp
  split at hp
  · simp at hp
  · split at hp
    · simp at hp
    · simp only [List.mem_map] at hp
      rcases hp with ⟨r, hr, hpr⟩
      rcases selectRooms_mem _ _ _ _ _ _ hr with ⟨hrm, hns⟩
      refine ⟨r, hrm, ?_⟩
      subst hpr
      refine ⟨rfl, rfl, rfl, hns, ?_⟩
      intro mo2 hmo2
      cases so with
      | none => simp at hmo2
      | some s2 =>
        simp only [Option.map_some] at hmo2
        cases hmo2
        exact ⟨rfl, rfl, rfl⟩

lemma buildSchedulePair_modes (nd : Nat) (rm : String → List Resource) (cid : Nat)
    (ss : ClientSex) (so : Option ClientSex) (ct : ClientType) (marital : ClientMaritalType)
    (acts : List (List Activity)) :
    ∀ sched ∈ [(buildSchedulePair nd rm cid ss so ct marital acts).1,
               (buildSchedulePair nd rm cid ss so ct marital acts).2],
      ∀ slot ∈ sched, ∀ mo ∈ slot,
        mo.client_marital_type = marital ∧
        ∃ r, (∃ k, r ∈ rm k) ∧ mo.room_id = r.resource_id ∧ mo.room_floor = r.location ∧
          (marital = ClientMaritalType.COUPLE →
            r.room_type ≠ ResourceRoomTypes.SINGLE_CLIENT_ROOM) := by
  intro sched hsched slot hslot mo hmo
  unfold buildSchedulePair at hsched
  simp only [List.mem_cons, List.mem_singleton] at hsched
  have key : ∃ (p : ActivityMode × Option ActivityMode) (a : Activity) (bucket : List Activity),
      bucket ∈ acts ∧ a ∈ bucket ∧
      (p ∈ modesForActivity nd rm cid ss so ct marital a) ∧
      (mo = p.1 ∨ p.2 = some mo) := by
    rcases hsched with h1 | h2
    · subst h1
      simp only [List.mem_map] at hslot
      rcases hslot with ⟨per, hper, hslot⟩
      rcases hper with ⟨bucket, hbucket, hper⟩
      subst hper; subst hslot
      unfold bucketModes at hmo
      simp only [List.mem_map, List.mem_flatMap] at hmo
      rcases hmo with ⟨p, ⟨a, ha, hpa⟩, hp1⟩
      exact ⟨p, a, bucket, hbucket, ha, hpa, Or.inl hp1.symm⟩
    · rcases h2 with h2 | h2
      · subst h2
        simp only [List.mem_filter] at hslot
        rcases hslot with ⟨hslot, _⟩
        simp only [List.mem_map] at hslot
        rcases hslot with ⟨per, hper, hslot⟩
        rcases hper with ⟨bucket, hbucket, hper⟩
        subst hper; subst hslot
        unfold bucketModes at hmo
        simp only [List.mem_filterMap, List.mem_flatMap] at hmo
        rcases hmo with ⟨p, ⟨a, ha, hpa⟩, hp2⟩
        exact ⟨p, a, bucket, hbucket, ha, hpa, Or.inr hp2⟩
      · simp at h2
  rcases key with ⟨p, a, bucket, _, _, hpa, hcase⟩
  rcases modesForActivity_mem _ _ _ _ _ _ _ _ _ hpa with
    ⟨r, hrm, hid1, hfl1, hmar1, hns, hother⟩
  rcases hcase with hcase | hcase
  · subst hcase
    exact ⟨hmar1, r, ⟨_, hrm⟩, hid1, hfl1, hns⟩
  · rcases hother mo hcase with ⟨hid2, hfl2, hmar2⟩
    exact ⟨hmar2, r, ⟨_, hrm⟩, hid2, hfl2, hns⟩

lemma materializeAssessment_zero (oracle : Nat → Nat) (nd : Nat)
    (rm : String → List Resource) (ct : ClientType) (acts : List (List Activity))
    (fuel : Nat) (counts : ClientCount) (st : MatState) (hc : numClients counts = 0) :
    materializeAssessment oracle nd rm ct acts fuel counts st = ([], [], st) := by
  cases fuel with
  | zero => simp [materializeAssessment]
  | succ n => simp [materializeAssessment, hc]

/-- Master specification of the per-assessment materializer: for any draw
oracle, the scenario list has contiguous client numbers, carries the
assessment's client type, realizes exactly the requested per-category
counts, pairs couples adjacently with fresh shared couple numbers, offers
no SINGLE_CLIENT room to couple clients, and advances the id counters by
the computed totals. -/
lemma materializeAssessment_spec (oracle : Nat → Nat) (nd : Nat)
    (rm : String → List Resource) (ct : ClientType) (acts : List (List Activity)) :
    ∀ (fuel : Nat) (counts : ClientCount) (st : MatState)
      (scens : List ClientScenario) (scheds : List Schedule) (stf : MatState),
      numPicks counts ≤ fuel →
      materializeAssessment oracle nd rm ct acts fuel counts st = (scens, scheds, stf) →
      scens.map (fun s => s.client_number) = List.range' st.nextId (numClients counts) ∧
      (∀ s ∈ scens, s.client_type = ct) ∧
      countSexType scens ClientSex.MALE ClientMaritalType.SINGLE = counts.single_male ∧
      countSexType scens ClientSex.FEMALE ClientMaritalType.SINGLE = counts.single_female ∧
      countSexType scens ClientSex.MALE ClientMaritalType.COUPLE
        = 2 * counts.couple_male_male + counts.couple_male_female ∧
      countSexType scens ClientSex.FEMALE ClientMaritalType.COUPLE
        = 2 * counts.couple_female_female + counts.couple_male_female ∧
      WellPaired scens ∧
      (∀ s ∈ scens, ∀ n, s.couple_client_no = some n → st.coupleId ≤ n) ∧
      NoSingleRoomsForCouples rm scheds ∧
      stf = ⟨st.nextId + numClients counts, st.coupleId + numCouples counts,
             st.choiceIx + numPicks counts⟩ := by
  intro fuel
  induction fuel with
  | zero =>
    intro counts st scens scheds stf hle heq
    have h0 : numPicks counts = 0 := Nat.le_zero.mp hle
    have hc : numClients counts = 0 := (numClients_eq_zero_iff counts).mpr h0
    rw [materializeAssessment_zero oracle nd rm ct acts 0 counts st hc] at heq
    simp only [Prod.mk.injEq] at heq
    obtain ⟨rfl, rfl, rfl⟩ := heq
    have hfields : counts.single_male = 0 ∧ counts.single_female = 0 ∧
        counts.couple_male_male = 0 ∧ counts.couple_female_female = 0 ∧
        counts.couple_male_female = 0 := by
      unfold numPicks at h0; omega
    obtain ⟨q1, q2, q3, q4, q5⟩ := hfields
    refine ⟨by simp [hc], by simp, by simp [countSexType, q1], by simp [countSexType, q2],
      by simp [countSexType, q3, q5], by simp [countSexType, q4, q5], WellPaired.nil,
      by simp, ?_, ?_⟩
    · intro sched h; simp at h
    · cases st
      simp [hc, numCouples, q3, q4, q5]
      unfold numPicks at h0
      omega
  | succ fuel ih =>
    intro counts st scens scheds stf hle heq
    by_cases hc : numClients counts = 0
    · have h0 : numPicks counts = 0 := (numClients_eq_zero_iff counts).mp hc
      rw [materializeAssessment_zero oracle nd rm ct acts _ counts st hc] at heq
      simp only [Prod.mk.injEq] at heq
      obtain ⟨rfl, rfl, rfl⟩ := heq
      have hfields : counts.single_male = 0 ∧ counts.single_female = 0 ∧
          counts.couple_male_male = 0 ∧ counts.couple_female_female = 0 ∧
          counts.couple_male_female = 0 := by
        unfold numPicks at h0; omega
      obtain ⟨q1, q2, q3, q4, q5⟩ := hfields
      refine ⟨by simp [hc], by simp, by simp [countSexType, q1], by simp [countSexType, q2],
        by simp [countSexType, q3, q5], by simp [countSexType, q4, q5], WellPaired.nil,
        by simp, ?_, ?_⟩
      · intro sched h; simp at h
      · cases st
        simp [hc, numCouples, q3, q4, q5]
        omega
    · have hmem := chosen_mem counts (oracle st.choiceIx) hc
      simp only [materializeAssessment] at heq
      rw [if_neg hc] at heq
      rcases mem_clientInfos counts _ hmem with ⟨hi, hpos⟩ | ⟨hi, hpos⟩ | ⟨hi, hpos⟩ |
        ⟨hi, hpos⟩ | ⟨hi, hpos⟩ <;> rw [hi] at heq
      case _ =>
        -- single male
        set dec := decrementCounts counts (ClientSex.MALE, none, ClientMaritalType.SINGLE)
          with hdec
        have hdec2 : dec = { counts with single_male := counts.single_male - 1 } := by
          simp [hdec, decrementCounts]
        have hnc : numClients counts = numClients dec + 1 := by
          rw [hdec2]; unfold numClients; simp; omega
        have hnp : numPicks counts = numPicks dec + 1 := by
          rw [hdec2]; unfold numPicks; simp; omega
        have hcp : numCouples counts = numCouples dec := by
          rw [hdec2]; unfold numCouples; simp
        rcases hr : materializeAssessment oracle nd rm ct acts fuel dec
            ⟨st.nextId + 1, st.coupleId, st.choiceIx + 1⟩ with ⟨rs, rsch, rstf⟩
        rw [hr] at heq
        simp only [Prod.mk.injEq] at heq
        obtain ⟨rfl, rfl, rfl⟩ := heq
        obtain ⟨ih1, ih2, ih3, ih4, ih5, ih6, ih7, ih8, ih9, ih10⟩ :=
          ih dec ⟨st.nextId + 1, st.coupleId, st.choiceIx + 1⟩ rs rsch rstf (by omega) hr
        refine ⟨?_, ?_, ?_, ?_, ?_, ?_, ?_, ?_, ?_, ?_⟩
        · simp only [List.map_cons, ih1, hnc, List.range'_succ]
          rfl
        · intro s hs
          rcases List.mem_cons.mp hs with rfl | hs
          · rfl
          · exact ih2 s hs
        · simp [countSexType, List.countP_cons, mkClientScenario] at ih3 ⊢
          rw [ih3, hdec2]; simp; omega
        · simp [countSexType, List.countP_cons, mkClientScenario] at ih4 ⊢
          rw [ih4, hdec2]
        · simp [countSexType, List.countP_cons, mkClientScenario] at ih5 ⊢
          rw [ih5, hdec2]
        · simp [countSexType, List.countP_cons, mkClientScenario] at ih6 ⊢
          rw [ih6, hdec2]
        · exact WellPaired.single _ _ rfl (by simp [mkClientScenario]) ih7
        · intro s hs n hn
          rcases List.mem_cons.mp hs with rfl | hs
          · simp [mkClientScenario] at hn
          · exact ih8 s hs n hn
        · intro sched hsched
          rcases List.mem_cons.mp hsched with rfl | hsched
          · intro slot hslot mo hmo hcouple
            have := buildSchedulePair_modes nd rm st.nextId ClientSex.MALE none ct
              ClientMaritalType.SINGLE acts _ (by simp) slot hslot mo hmo
            rw [hcouple] at this
            exact absurd this.1.symm (by simp)
          · exact ih9 sched hsched
        · rw [ih10]
          simp only [MatState.mk.injEq]
          omega
      case _ =>
        -- single female
        set dec := decrementCounts counts (ClientSex.FEMALE, none, ClientMaritalType.SINGLE)
          with hdec
        have hdec2 : dec = { counts with single_female := counts.single_female - 1 } := by
          simp [hdec, decrementCounts]
        have hnc : numClients counts = numClients dec + 1 := by
          rw [hdec2]; unfold numClients; simp; omega
        have hnp : numPicks counts = numPicks dec + 1 := by
          rw [hdec2]; unfold numPicks; simp; omega
        have hcp : numCouples counts = numCouples dec := by
          rw [hdec2]; unfold numCouples; simp
        rcases hr : materializeAssessment oracle nd rm ct acts fuel dec
            ⟨st.nextId + 1, st.coupleId, st.choiceIx + 1⟩ with ⟨rs, rsch, rstf⟩
        rw [hr] at heq
        simp only [Prod.mk.injEq] at heq
        obtain ⟨rfl, rfl, rfl⟩ := heq
        obtain ⟨ih1, ih2, ih3, ih4, ih5, ih6, ih7, ih8, ih9, ih10⟩ :=
          ih dec ⟨st.nextId + 1, st.coupleId, st.choiceIx + 1⟩ rs rsch rstf (by omega) hr
        refine ⟨?_, ?_, ?_, ?_, ?_, ?_, ?_, ?_, ?_, ?_⟩
        · simp only [List.map_cons, ih1, hnc, List.range'_succ]
          rfl
        · intro s hs
          rcases List.mem_cons.mp hs with rfl | hs
          · rfl
          · exact ih2 s hs
        · simp [countSexType, List.countP_cons, mkClientScenario] at ih3 ⊢
          rw [ih3, hdec2]
        · simp [countSexType, List.countP_cons, mkClientScenario] at ih4 ⊢
          rw [ih4, hdec2]; simp; omega
        · simp [countSexType, List.countP_cons, mkClientScenario] at ih5 ⊢
          rw [ih5, hdec2]
        · simp [countSexType, List.countP_cons, mkClientScenario] at ih6 ⊢
          rw [ih6, hdec2]
        · exact WellPaired.single _ _ rfl (by simp [mkClientScenario]) ih7
        · intro s hs n hn
          rcases List.mem_cons.mp hs with rfl | hs
          · simp [mkClientScenario] at hn
          · exact ih8 s hs n hn
        · intro sched hsched
          rcases List.mem_cons.mp hsched with rfl | hsched
          · intro slot hslot mo hmo hcouple
            have := buildSchedulePair_modes nd rm st.nextId ClientSex.FEMALE none ct
              ClientMaritalType.SINGLE acts _ (by simp) slot hslot mo hmo
            rw [hcouple] at this
            exact absurd this.1.symm (by simp)
          · exact ih9 sched hsched
        · rw [ih10]
          simp only [MatState.mk.injEq]
          omega
      case _ =>
        -- couple male-male
        set dec := decrementCounts counts
          (ClientSex.MALE, some ClientSex.MALE, ClientMaritalType.COUPLE) with hdec
        have hdec2 : dec = { counts with couple_male_male := counts.couple_male_male - 1 } := by
          simp [hdec, decrementCounts]
        have hnc : numClients counts = numClients dec + 1 + 1 := by
          rw [hdec2]; unfold numClients; simp; omega
        have hnp : numPicks counts = numPicks dec + 1 := by
          rw [hdec2]; unfold numPicks; simp; omega
        have hcp : numCouples counts = numCouples dec + 1 := by
          rw [hdec2]; unfold numCouples; simp; omega
        rcases hr : materializeAssessment oracle nd rm ct acts fuel dec
            ⟨st.nextId + 2, st.coupleId + 1, st.choiceIx + 1⟩ with ⟨rs, rsch, rstf⟩
        rw [hr] at heq
        simp only [Prod.mk.injEq] at heq
        obtain ⟨rfl, rfl, rfl⟩ := heq
        obtain ⟨ih1, ih2, ih3, ih4, ih5, ih6, ih7, ih8, ih9, ih10⟩ :=
          ih dec ⟨st.nextId + 2, st.coupleId + 1, st.choiceIx + 1⟩ rs rsch rstf (by omega) hr
        refine ⟨?_, ?_, ?_, ?_, ?_, ?_, ?_, ?_, ?_, ?_⟩
        · simp only [List.map_cons, ih1, hnc, List.range'_succ]
          rfl
        · intro s hs
          rcases List.mem_cons.mp hs with rfl | hs
          · rfl
          · rcases List.mem_cons.mp hs with rfl | hs
            · rfl
            · exact ih2 s hs
        · simp [countSexType, List.countP_cons, mkClientScenario, mkOtherClientScenario]
            at ih3 ⊢
          rw [ih3, hdec2]
        · simp [countSexType, List.countP_cons, mkClientScenario, mkOtherClientScenario]
            at ih4 ⊢
          rw [ih4, hdec2]
        · simp [countSexType, List.countP_cons, mkClientScenario, mkOtherClientScenario]
            at ih5 ⊢
          rw [ih5, hdec2]; simp; omega
        · simp [countSexType, List.countP_cons, mkClientScenario, mkOtherClientScenario]
            at ih6 ⊢
          rw [ih6, hdec2]
        · refine WellPaired.couple _ _ _ rfl rfl rfl rfl (by simp [mkClientScenario]) ?_ ih7
          intro s hs
          cases hcn : s.couple_client_no with
          | none => simp [mkClientScenario, hcn]
          | some n =>
            have h2 : st.coupleId + 1 ≤ n := ih8 s hs n hcn
            simp only [mkClientScenario, hcn]
            simp
            omega
        · intro s hs n hn
          rcases List.mem_cons.mp hs with rfl | hs
          · simp [mkClientScenario] at hn
            omega
          · rcases List.mem_cons.mp hs with rfl | hs
            · simp [mkOtherClientScenario] at hn
              omega
            · have h2 : st.coupleId + 1 ≤ n := ih8 s hs n hn
              omega
        · intro sched hsched
          rcases List.mem_append.mp hsched with hl | hrr
          · have hbs : sched = (buildSchedulePair nd rm st.nextId ClientSex.MALE
                (some ClientSex.MALE) ct ClientMaritalType.COUPLE acts).1 ∨
                sched = (buildSchedulePair nd rm st.nextId ClientSex.MALE
                (some ClientSex.MALE) ct ClientMaritalType.COUPLE acts).2 := by
              rcases List.mem_cons.mp hl with h | h
              · exact Or.inl h
              · split at h
                · simp at h
                · simp at h
                  exact Or.inr h
            intro slot hslot mo hmo hcouple
            have hmodes := buildSchedulePair_modes nd rm st.nextId ClientSex.MALE
              (some ClientSex.MALE) ct ClientMaritalType.COUPLE acts sched
              (by rcases hbs with h | h <;> simp [h]) slot hslot mo hmo
            rcases hmodes with ⟨_, r, hk, hid, hfl, hns⟩
            exact ⟨r, hk, hid, hfl, hns rfl⟩
          · exact ih9 sched hrr
        · rw [ih10]
          simp only [MatState.mk.injEq]
          omega
      case _ =>
        -- couple female-female
        set dec := decrementCounts counts
          (ClientSex.FEMALE, some ClientSex.FEMALE, ClientMaritalType.COUPLE) with hdec
        have hdec2 : dec =
            { counts with couple_female_female := counts.couple_female_female - 1 } := by
          simp [hdec, decrementCounts]
        have hnc : numClients counts = numClients dec + 1 + 1 := by
          rw [hdec2]; unfold numClients; simp; omega
        have hnp : numPicks counts = numPicks dec + 1 := by
          rw [hdec2]; unfold numPicks; simp; omega
        have hcp : numCouples counts = numCouples dec + 1 := by
          rw [hdec2]; unfold numCouples; simp; omega
        rcases hr : materializeAssessment oracle nd rm ct acts fuel dec
            ⟨st.nextId + 2, st.coupleId + 1, st.choiceIx + 1⟩ with ⟨rs, rsch, rstf⟩
        rw [hr] at heq
        simp only [Prod.mk.injEq] at heq
        obtain ⟨rfl, rfl, rfl⟩ := heq
        obtain ⟨ih1, ih2, ih3, ih4, ih5, ih6, ih7, ih8, ih9, ih10⟩ :=
          ih dec ⟨st.nextId + 2, st.coupleId + 1, st.choiceIx + 1⟩ rs rsch rstf (by omega) hr
        refine ⟨?_, ?_, ?_, ?_, ?_, ?_, ?_, ?_, ?_, ?_⟩
        · simp only [List.map_cons, ih1, hnc, List.range'_succ]
          rfl
        · intro s hs
          rcases List.mem_cons.mp hs with rfl | hs
          · rfl
          · rcases List.mem_cons.mp hs with rfl | hs
            · rfl
            · exact ih2 s hs
        · simp [countSexType, List.countP_cons, mkClientScenario, mkOtherClientScenario]
            at ih3 ⊢
          rw [ih3, hdec2]
        · simp [countSexType, List.countP_cons, mkClientScenario, mkOtherClientScenario]
            at ih4 ⊢
          rw [ih4, hdec2]
        · simp [countSexType, List.countP_cons, mkClientScenario, mkOtherClientScenario]
            at ih5 ⊢
          rw [ih5, hdec2]
        · simp [countSexType, List.countP_cons, mkClientScenario, mkOtherClientScenario]
            at ih6 ⊢
          rw [ih6, hdec2]; simp; omega
        · refine WellPaired.couple _ _ _ rfl rfl rfl rfl (by simp [mkClientScenario]) ?_ ih7
          intro s hs
          cases hcn : s.couple_client_no with
          | none => simp [mkClientScenario, hcn]
          | some n =>
            have h2 : st.coupleId + 1 ≤ n := ih8 s hs n hcn
            simp only [mkClientScenario, hcn]
            simp
            omega
        · intro s hs n hn
          rcases List.mem_cons.mp hs with rfl | hs
          · simp [mkClientScenario] at hn
            omega
          · rcases List.mem_cons.mp hs with rfl | hs
            · simp [mkOtherClientScenario] at hn
              omega
            · have h2 : st.coupleId + 1 ≤ n := ih8 s hs n hn
              omega
        · intro sched hsched
          rcases List.mem_append.mp hsched with hl | hrr
          · have hbs : sched = (buildSchedulePair nd rm st.nextId ClientSex.FEMALE
                (some ClientSex.FEMALE) ct ClientMaritalType.COUPLE acts).1 ∨
                sched = (buildSchedulePair nd rm st.nextId ClientSex.FEMALE
                (some ClientSex.FEMALE) ct ClientMaritalType.COUPLE acts).2 := by
              rcases List.mem_cons.mp hl with h | h
              · exact Or.inl h
              · split at h
                · simp at h
                · simp at h
                  exact Or.inr h
            intro slot hslot mo hmo hcouple
            have hmodes := buildSchedulePair_modes nd rm st.nextId ClientSex.FEMALE
              (some ClientSex.FEMALE) ct ClientMaritalType.COUPLE acts sched
              (by rcases hbs with h | h <;> simp [h]) slot hslot mo hmo
            rcases hmodes with ⟨_, r, hk, hid, hfl, hns⟩
            exact ⟨r, hk, hid, hfl, hns rfl⟩
          · exact ih9 sched hrr
        · rw [ih10]
          simp only [MatState.mk.injEq]
          omega
      case _ =>
        -- couple male-female
        set dec := decrementCounts counts
          (ClientSex.MALE, some ClientSex.FEMALE, ClientMaritalType.COUPLE) with hdec
        have hdec2 : dec =
            { counts with couple_male_female := counts.couple_male_female - 1 } := by
          simp [hdec, decrementCounts]
        have hnc : numClients counts = numClients dec + 1 + 1 := by
          rw [hdec2]; unfold numClients; simp; omega
        have hnp : numPicks counts = numPicks dec + 1 := by
          rw [hdec2]; unfold numPicks; simp; omega
        have hcp : numCouples counts = numCouples dec + 1 := by
          rw [hdec2]; unfold numCouples; simp; omega
        rcases hr : materializeAssessment oracle nd rm ct acts fuel dec
            ⟨st.nextId + 2, st.coupleId + 1, st.choiceIx + 1⟩ with ⟨rs, rsch, rstf⟩
        rw [hr] at heq
        simp only [Prod.mk.injEq] at heq
        obtain ⟨rfl, rfl, rfl⟩ := heq
        obtain ⟨ih1, ih2, ih3, ih4, ih5, ih6, ih7, ih8, ih9, ih10⟩ :=
          ih dec ⟨st.nextId + 2, st.coupleId + 1, st.choiceIx + 1⟩ rs rsch rstf (by omega) hr
        refine ⟨?_, ?_, ?_, ?_, ?_, ?_, ?_, ?_, ?_, ?_⟩
        · simp only [List.map_cons, ih1, hnc, List.range'_succ]
          rfl
        · intro s hs
          rcases List.mem_cons.mp hs with rfl | hs
          · rfl
          · rcases List.mem_cons.mp hs with rfl | hs
            · rfl
            · exact ih2 s hs
        · simp [countSexType, List.countP_cons, mkClientScenario, mkOtherClientScenario]
            at ih3 ⊢
          rw [ih3, hdec2]
        · simp [countSexType, List.countP_cons, mkClientScenario, mkOtherClientScenario]
            at ih4 ⊢
          rw [ih4, hdec2]
        · simp [countSexType, List.countP_cons, mkClientScenario, mkOtherClientScenario]
            at ih5 ⊢
          rw [ih5, hdec2]; simp; omega
        · simp [countSexType, List.countP_cons, mkClientScenario, mkOtherClientScenario]
            at ih6 ⊢
          rw [ih6, hdec2]; simp; omega
        · refine WellPaired.couple _ _ _ rfl rfl rfl rfl (by simp [mkClientScenario]) ?_ ih7
          intro s hs
          cases hcn : s.couple_client_no with
          | none => simp [mkClientScenario, hcn]
          | some n =>
            have h2 : st.coupleId + 1 ≤ n := ih8 s hs n hcn
            simp only [mkClientScenario, hcn]
            simp
            omega
        · intro s hs n hn
          rcases List.mem_cons.mp hs with rfl | hs
          · simp [mkClientScenario] at hn
            omega
          · rcases List.mem_cons.mp hs with rfl | hs
            · simp [mkOtherClientScenario] at hn
              omega
            · have h2 : st.coupleId + 1 ≤ n := ih8 s hs n hn
              omega
        · intro sched hsched
          rcases List.mem_append.mp hsched with hl | hrr
          · have hbs : sched = (buildSchedulePair nd rm st.nextId ClientSex.MALE
                (some ClientSex.FEMALE) ct ClientMaritalType.COUPLE acts).1 ∨
                sched = (buildSchedulePair nd rm st.nextId ClientSex.MALE
                (some ClientSex.FEMALE) ct ClientMaritalType.COUPLE acts).2 := by
              rcases List.mem_cons.mp hl with h | h
              · exact Or.inl h
              · split at h
                · simp at h
                · simp at h
                  exact Or.inr h
            intro slot hslot mo hmo hcouple
            have hmodes := buildSchedulePair_modes nd rm st.nextId ClientSex.MALE
              (some ClientSex.FEMALE) ct ClientMaritalType.COUPLE acts sched
              (by rcases hbs with h | h <;> simp [h]) slot hslot mo hmo
            rcases hmodes with ⟨_, r, hk, hid, hfl, hns⟩
            exact ⟨r, hk, hid, hfl, hns rfl⟩
          · exact ih9 sched hrr
        · rw [ih10]
          simp only [MatState.mk.injEq]
          omega

lemma initializeVariables_two (oracle : Nat → Nat) (nd : Nat) (rm : String → List Resource)
    (actsO actsU : List (List Activity)) (cO cU : ClientCount) (st : MatState) :
    initializeVariables oracle nd rm { client_elite := cO, client_ultimate := cU }
      [⟨"OPTIMAL", "Optimal", actsO⟩, ⟨"ULTIMATE", "Ultimate", actsU⟩] st =
      Except.ok
        ((runAssessment oracle nd rm ClientType.OPTIMAL actsO cO st).1 ++
          (runAssessment oracle nd rm ClientType.ULTIMATE actsU cU
            (runAssessment oracle nd rm ClientType.OPTIMAL actsO cO st).2.2).1,
         (runAssessment oracle nd rm ClientType.OPTIMAL actsO cO st).2.1 ++
          (runAssessment oracle nd rm ClientType.ULTIMATE actsU cU
            (runAssessment oracle nd rm ClientType.OPTIMAL actsO cO st).2.2).2.1) := by
  have hgO : getCountData { client_elite := cO, client_ultimate := cU } "OPTIMAL" =
      Except.ok cO := rfl
  have hgU : getCountData { client_elite := cO, client_ultimate := cU } "ULTIMATE" =
      Except.ok cU := rfl
  have htO : clientTypeOfName "Optimal" = Except.ok ClientType.OPTIMAL := rfl
  have htU : clientTypeOfName "Ultimate" = Except.ok ClientType.ULTIMATE := rfl
  have hzrun : ∀ (ct : ClientType) (acts : List (List Activity)) (c : ClientCount)
      (st2 : MatState), numClients c = 0 →
      runAssessment oracle nd rm ct acts c st2 = ([], [], st2) := by
    intro ct acts c st2 hz
    unfold runAssessment
    exact materializeAssessment_zero _ _ _ _ _ _ _ _ hz
  by_cases hzO : numClients cO = 0 <;> by_cases hzU : numClients cU = 0 <;>
    simp only [initializeVariables, hgO, hgU, htO, htU]
  · rw [if_pos hzO, if_pos hzU,
      hzrun ClientType.OPTIMAL actsO cO st hzO]
    rw [hzrun ClientType.ULTIMATE actsU cU st hzU]
    simp
  · rw [if_pos hzO, if_neg hzU, hzrun ClientType.OPTIMAL actsO cO st hzO]
    simp
  · rw [if_neg hzO, if_pos hzU,
      hzrun ClientType.ULTIMATE actsU cU _ hzU]
    try simp
  · rw [if_neg hzO, if_neg hzU]
    try simp

/-- Claim C1 (counterexample): the materializer is not a deterministic
function of the input.  With one single male and one single female client
requested, two runs that differ only in the random draws of
random.choice (solver_v2.py:172) produce different ordered scenario
lists (male first versus female first). -/
theorem claim_c1_counterexample :
    (runAssessment (fun _ => 0) 1 (fun _ => []) ClientType.ULTIMATE []
        { single_male := 1, single_female := 1 } ⟨0, 0, 0⟩).1 ≠
      (runAssessment (fun _ => 1) 1 (fun _ => []) ClientType.ULTIMATE []
        { single_male := 1, single_female := 1 } ⟨0, 0, 0⟩).1 := by
  decide

/-- Claim C1 (amended): client materialization is deterministic only up to
the draws of the unseeded random.choice at solver_v2.py:172.  For every
draw sequence, the per-category multiset of materialized clients matches
the requested counts exactly, and the client numbering is the same
contiguous range; the order in which the categories appear depends on the
draws. -/
theorem claim_c1_amended (oracle : Nat → Nat) (nd : Nat) (rm : String → List Resource)
    (ct : ClientType) (acts : List (List Activity)) (counts : ClientCount) (st : MatState) :
    countSexType (runAssessment oracle nd rm ct acts counts st).1 ClientSex.MALE
        ClientMaritalType.SINGLE = counts.single_male ∧
    countSexType (runAssessment oracle nd rm ct acts counts st).1 ClientSex.FEMALE
        ClientMaritalType.SINGLE = counts.single_female ∧
    countSexType (runAssessment oracle nd rm ct acts counts st).1 ClientSex.MALE
        ClientMaritalType.COUPLE
      = 2 * counts.couple_male_male + counts.couple_male_female ∧
    countSexType (runAssessment oracle nd rm ct acts counts st).1 ClientSex.FEMALE
        ClientMaritalType.COUPLE
      = 2 * counts.couple_female_female + counts.couple_male_female ∧
    (runAssessment oracle nd rm ct acts counts st).1.map (fun s => s.client_number) =
      List.range' st.nextId (numClients counts) := by
  obtain ⟨h1, _, h3, h4, h5, h6, _, _, _, _⟩ :=
    materializeAssessment_spec oracle nd rm ct acts (numClients counts) counts st
      (runAssessment oracle nd rm ct acts counts st).1
      (runAssessment oracle nd rm ct acts counts st).2.1
      (runAssessment oracle nd rm ct acts counts st).2.2
      (by unfold numPicks numClients; omega) rfl
  exact ⟨h3, h4, h5, h6, h1⟩

/-- Claim C9 (counterexample): the code does not support a Core assessment.
Sorting assessment names calls Solver.__get_assessment_priority, which for
the name CORE evaluates m.ClientType.CORE and raises AttributeError
(model.py's ClientType has only OPTIMAL and ULTIMATE); likewise the count
lookup getattr(scenario_action.data, client_core) fails because
ScenarioActionData has no client_core field. -/
theorem claim_c9_counterexample :
    sortAssessmentNames ["OPTIMAL", "ULTIMATE", "CORE"] =
      Except.error "AttributeError: type object ClientType has no attribute CORE" ∧
    getCountData {} "CORE" =
      Except.error
        "AttributeError: ScenarioActionData object has no attribute client_core" := by
  exact ⟨rfl, rfl⟩

/-- Claim C9 (amended): for the assessments the code supports, client ids
are contiguous starting at 0 across assessments, and assessments are
processed in priority order Optimal (0) before Ultimate (1): the name sort
puts OPTIMAL first, and for every draw oracle and any client counts the
materialized list is an Optimal block followed by an Ultimate block with
client numbers 0, 1, 2, and so on. -/
theorem claim_c9_amended (oracle : Nat → Nat) (nd : Nat) (rm : String → List Resource)
    (actsO actsU : List (List Activity)) (cO cU : ClientCount) :
    sortAssessmentNames ["ULTIMATE", "OPTIMAL"] = Except.ok ["OPTIMAL", "ULTIMATE"] ∧
    ∃ scens scheds,
      initializeVariables oracle nd rm { client_elite := cO, client_ultimate := cU }
        [⟨"OPTIMAL", "Optimal", actsO⟩, ⟨"ULTIMATE", "Ultimate", actsU⟩] ⟨0, 0, 0⟩ =
        Except.ok (scens, scheds) ∧
      scens.map (fun s => s.client_number) =
        List.range (numClients cO + numClients cU) ∧
      ∃ a b, scens = a ++ b ∧ (∀ s ∈ a, s.client_type = ClientType.OPTIMAL) ∧
        (∀ s ∈ b, s.client_type = ClientType.ULTIMATE) := by
  refine ⟨rfl, ?_⟩
  obtain ⟨hO1, hO2, _, _, _, _, _, _, _, hO10⟩ :=
    materializeAssessment_spec oracle nd rm ClientType.OPTIMAL actsO (numClients cO) cO
      ⟨0, 0, 0⟩
      (runAssessment oracle nd rm ClientType.OPTIMAL actsO cO ⟨0, 0, 0⟩).1
      (runAssessment oracle nd rm ClientType.OPTIMAL actsO cO ⟨0, 0, 0⟩).2.1
      (runAssessment oracle nd rm ClientType.OPTIMAL actsO cO ⟨0, 0, 0⟩).2.2
      (by unfold numPicks numClients; omega) rfl
  obtain ⟨hU1, hU2, _, _, _, _, _, _, _, _⟩ :=
    materializeAssessment_spec oracle nd rm ClientType.ULTIMATE actsU (numClients cU) cU
      (runAssessment oracle nd rm ClientType.OPTIMAL actsO cO ⟨0, 0, 0⟩).2.2
      (runAssessment oracle nd rm ClientType.ULTIMATE actsU cU
        (runAssessment oracle nd rm ClientType.OPTIMAL actsO cO ⟨0, 0, 0⟩).2.2).1
      (runAssessment oracle nd rm ClientType.ULTIMATE actsU cU
        (runAssessment oracle nd rm ClientType.OPTIMAL actsO cO ⟨0, 0, 0⟩).2.2).2.1
      (runAssessment oracle nd rm ClientType.ULTIMATE actsU cU
        (runAssessment oracle nd rm ClientType.OPTIMAL actsO cO ⟨0, 0, 0⟩).2.2).2.2
      (by unfold numPicks numClients; omega) rfl
  refine ⟨_, _, initializeVariables_two oracle nd rm actsO actsU cO cU ⟨0, 0, 0⟩, ?_, ?_⟩
  · rw [List.map_append, hO1, hU1, hO10]
    simp only [List.range_eq_range']
    have h2 := List.range'_append 0 (numClients cO) (numClients cU) 1
    simp only [Nat.one_mul, Nat.zero_add] at h2
    rw [Nat.add_comm (numClients cU) (numClients cO)] at h2
    simpa using h2
  · exact ⟨_, _, rfl, hO2, hU2⟩

/-! ### Abstract CP-SAT constraint model

The Python solver emits CP-SAT constraints over integer variables (starts,
ends, floors, orders, transfer starts and ends) and Boolean variables
(room choices, circuit arcs, floor-difference and gap indicators).  We
name the variables after the dict keys that hold them in solver_v2.py and
give every emitted constraint a small deep-embedded syntax with a
decidable satisfaction predicate. -/

/-- Integer variables of the CP model, keyed as in the starts / ends /
floors / orders / transfer_starts / transfer_ends dicts. -/
inductive IVar
  | start (c : Nat) (a : String)
  | endv (c : Nat) (a : String)
  | floor (c : Nat) (a : String)
  | order (c : Nat) (a : String)
  | tstart (c : Nat) (i : Nat) (j : Nat)
  | tend (c : Nat) (i : Nat) (j : Nat)
deriving DecidableEq, Repr

/-- Boolean variables of the CP model, keyed as in the rooms /
transfer_precedences / transfer_floors dicts and the per-pair gap
indicator Booleans. -/
inductive BVar
  | room (c : Nat) (a : String) (r : String)
  | precedes (c : Nat) (i : Nat) (j : Nat)
  | tfloor (c : Nat) (i : Nat) (j : Nat)
  | consecOrders (c : Nat) (i : Nat) (j : Nat)
  | zeroDiff (c : Nat) (i : Nat) (j : Nat)
  | existingGap (c : Nat) (i : Nat) (j : Nat)
  | firstAct (c : Nat) (i : Nat)
  | lastAct (c : Nat) (i : Nat)
deriving DecidableEq, Repr

/-- A chosen-room entry of the rooms dict: a Boolean variable for
multi-mode slots, or model.NewConstant(1) (solver_v2.py:387) for slots
with a single mode. -/
inductive RVal
  | var (b : BVar)
  | one
deriving DecidableEq, Repr

/-- Linear expressions over integer variables. -/
inductive LinE
  | var (v : IVar)
  | const (k : Int)
  | add (a b : LinE)
  | sub (a b : LinE)
deriving DecidableEq, Repr

/-- Comparison operators of the emitted linear constraints. -/
inductive Cmp
  | eq
  | le
  | lt
  | ne
deriving DecidableEq, Repr

/-- One emitted CP-SAT constraint.  The enf list holds the OnlyEnforceIf
literals: (b, true) stands for b, (b, false) for b.Not(). -/
inductive Constr
  | lin (enf : List (BVar × Bool)) (lhs : LinE) (cmp : Cmp) (rhs : LinE)
  | modEq (enf : List (BVar × Bool)) (e : LinE) (m : Int) (r : Int)
  | boolEq (enf : List (BVar × Bool)) (b1 b2 : RVal)
  | boolIs (enf : List (BVar × Bool)) (b : BVar) (v : Bool)
  | exactlyOne (bs : List RVal)
  | atMostOne (bs : List RVal)
deriving DecidableEq, Repr

/-- A solver assignment: an integer value for every integer variable and a
Boolean value for every Boolean variable. -/
structure Assign where
  iv : IVar → Int
  bv : BVar → Bool

/-- Evaluate a linear expression. -/
def evalE (σ : Assign) : LinE → Int
  | .var v => σ.iv v
  | .const k => k
  | .add a b => evalE σ a + evalE σ b
  | .sub a b => evalE σ a - evalE σ b

/-- Evaluate a comparison. -/
def evalCmp : Cmp → Int → Int → Bool
  | .eq, a, b => a == b
  | .le, a, b => decide (a ≤ b)
  | .lt, a, b => decide (a < b)
  | .ne, a, b => a != b

/-- Evaluate a chosen-room entry. -/
def evalRV (σ : Assign) : RVal → Bool
  | .var b => σ.bv b
  | .one => true

/-- Evaluate one enforcement literal. -/
def evalLit (σ : Assign) (l : BVar × Bool) : Bool := σ.bv l.1 == l.2

/-- All enforcement literals hold. -/
def evalEnf (σ : Assign) (enf : List (BVar × Bool)) : Bool := enf.all (evalLit σ)

/-- Evaluate one constraint under an assignment (an OnlyEnforceIf
constraint holds whenever some enforcement literal is false). -/
def evalConstr (σ : Assign) : Constr → Bool
  | .lin enf lhs cmp rhs => !evalEnf σ enf || evalCmp cmp (evalE σ lhs) (evalE σ rhs)
  | .modEq enf e m r => !evalEnf σ enf || (evalE σ e % m == r)
  | .boolEq enf b1 b2 => !evalEnf σ enf || (evalRV σ b1 == evalRV σ b2)
  | .boolIs enf b v => !evalEnf σ enf || (σ.bv b == v)
  | .exactlyOne bs => bs.countP (evalRV σ) == 1
  | .atMostOne bs => decide (bs.countP (evalRV σ) ≤ 1)

/-- A feasible assignment for a constraint list. -/
def satisfies (σ : Assign) (cs : List Constr) : Bool := cs.all (evalConstr σ)

lemma satisfies_mem {σ : Assign} {cs : List Constr} {c : Constr}
    (h : satisfies σ cs = true) (hm : c ∈ cs) : evalConstr σ c = true :=
  List.all_eq_true.mp h c hm

lemma satisfies_append {σ : Assign} {cs ds : List Constr} :
    satisfies σ (cs ++ ds) = true ↔ satisfies σ cs = true ∧ satisfies σ ds = true := by
  simp [satisfies]

lemma lin_eq_of {σ : Assign} {enf : List (BVar × Bool)} {l r : LinE}
    (h : evalConstr σ (.lin enf l .eq r) = true) (he : evalEnf σ enf = true) :
    evalE σ l = evalE σ r := by
  simp [evalConstr, he, evalCmp] at h
  exact h

lemma lin_le_of {σ : Assign} {enf : List (BVar × Bool)} {l r : LinE}
    (h : evalConstr σ (.lin enf l .le r) = true) (he : evalEnf σ enf = true) :
    evalE σ l ≤ evalE σ r := by
  simp [evalConstr, he, evalCmp] at h
  exact h

lemma lin_lt_of {σ : Assign} {enf : List (BVar × Bool)} {l r : LinE}
    (h : evalConstr σ (.lin enf l .lt r) = true) (he : evalEnf σ enf = true) :
    evalE σ l < evalE σ r := by
  simp [evalConstr, he, evalCmp] at h
  exact h

lemma lin_ne_of {σ : Assign} {enf : List (BVar × Bool)} {l r : LinE}
    (h : evalConstr σ (.lin enf l .ne r) = true) (he : evalEnf σ enf = true) :
    evalE σ l ≠ evalE σ r := by
  simp [evalConstr, he, evalCmp] at h
  exact h

lemma boolEq_of {σ : Assign} {enf : List (BVar × Bool)} {b1 b2 : RVal}
    (h : evalConstr σ (.boolEq enf b1 b2) = true) (he : evalEnf σ enf = true) :
    evalRV σ b1 = evalRV σ b2 := by
  simp [evalConstr, he] at h
  exact h

lemma boolIs_of {σ : Assign} {enf : List (BVar × Bool)} {b : BVar} {v : Bool}
    (h : evalConstr σ (.boolIs enf b v) = true) (he : evalEnf σ enf = true) :
    σ.bv b = v := by
  simp [evalConstr, he] at h
  exact h

lemma modEq_of {σ : Assign} {enf : List (BVar × Bool)} {e : LinE} {m r : Int}
    (h : evalConstr σ (.modEq enf e m r) = true) (he : evalEnf σ enf = true) :
    evalE σ e % m = r := by
  simp [evalConstr, he] at h
  exact h

/-! ### Slot uid resolution (solver_v2.py:299-313)

Each slot's uid is the single distinct activity id of its modes; a slot
mixing several activity ids reuses an existing mapping when one of its ids
was already coalesced, and otherwise draws a fresh uuid4 hex name.  The
map from activity id to uid is threaded through all clients and slots in
order.  Python iterates a set where we iterate the first-occurrence
deduplication of the id list; for the single-id slots the claims exercise,
the two agree. -/

/-- Association-list update that keeps the original insertion position, as
Python dict assignment does. -/
def insertAssoc (m : List (String × String)) (k v : String) : List (String × String) :=
  match m with
  | [] => [(k, v)]
  | (k2, v2) :: rest => if k2 = k then (k2, v) :: rest else (k2, v2) :: insertAssoc rest k v

/-- State of the uid coalescing: the activities_uids_map plus a counter
standing for the stream of uuid4 draws. -/
structure UidState where
  a2u : List (String × String)
  fresh : Nat
deriving DecidableEq, Repr

/-- Stand-in for uuid4().hex: a name outside the space of activity ids. -/
def uuidName (n : Nat) : String := "#uuid" ++ String.mk (List.replicate n '*')

/-- Distinct activity ids of a slot (set(...) at solver_v2.py:299). -/
def slotIds (slot : Slot) : List String := (slot.map (fun mo => mo.id)).dedup

/-- Resolve the uid of one slot and record the id-to-uid mappings
(solver_v2.py:299-313). -/
def resolveSlotUid (st : UidState) (slot : Slot) : String × UidState :=
  let ids := slotIds slot
  let pick : String × UidState :=
    if ids.length ≠ 1 then
      match ids.find? (fun u => (st.a2u.lookup u).isSome) with
      | some u => ((st.a2u.lookup u).getD "", st)
      | none => (uuidName st.fresh, { st with fresh := st.fresh + 1 })
    else (ids.headD "", st)
  let a2u2 := slot.foldl (fun m mo => insertAssoc m mo.id pick.1) pick.2.a2u
  (pick.1, { pick.2 with a2u := a2u2 })

/-- A schedule with one resolved uid per slot. -/
abbrev USchedule := List (Slot × String)

/-- Resolve the uids of every slot of one schedule in order. -/
def resolveScheduleUids : UidState → Schedule → USchedule × UidState
  | st, [] => ([], st)
  | st, slot :: rest =>
    let p := resolveSlotUid st slot
    let r := resolveScheduleUids p.2 rest
    ((slot, p.1) :: r.1, r.2)

/-- Resolve the uids of every client schedule in order, as the outer loop
of Solver.__define_variables does. -/
def resolveAllUids : UidState → List Schedule → List USchedule × UidState
  | st, [] => ([], st)
  | st, sched :: rest =>
    let p := resolveScheduleUids st sched
    let r := resolveAllUids p.2 rest
    (p.1 :: r.1, r.2)

/-! ### Check-in chain constraints (solver_v2.py:339-350, 392-394)

Within Solver.__define_variables, whenever a slot's uid equals the
check-in activity id, the slot's start is pinned: the very first such slot
gets start = 0; a second couple partner gets start = previous start; every
other client gets start > previous start.  previous_couple_no is updated
after each client exactly as at solver_v2.py:393-394. -/

/-- Constraints emitted for one client's slots, threading previous_start. -/
def checkInChainClient (startActId : String) (c : Nat) (cl : ClientScenario)
    (prevCouple : Option Nat) :
    Option IVar → USchedule → List Constr × Option IVar
  | pv, [] => ([], pv)
  | pv, (_, uid) :: rest =>
    if uid = startActId then
      let cs :=
        match pv with
        | none => [Constr.lin [] (.var (.start c uid)) .eq (.const 0)]
        | some pvar =>
          if prevCouple == cl.couple_client_no ∧ cl.type = ClientMaritalType.COUPLE then
            [Constr.lin [] (.var (.start c uid)) .eq (.var pvar)]
          else
            [Constr.lin [] (.var pvar) .lt (.var (.start c uid))]
      let r := checkInChainClient startActId c cl prevCouple
        (some (.start c uid)) rest
      (cs ++ r.1, r.2)
    else
      checkInChainClient startActId c cl prevCouple pv rest

/-- previous_couple_no update of solver_v2.py:393-394. -/
def updatePrevCouple (prevCouple : Option Nat) (cl : ClientScenario) : Option Nat :=
  if cl.type = ClientMaritalType.COUPLE ∧
      (prevCouple = none ∨ prevCouple ≠ cl.couple_client_no) then
    cl.couple_client_no
  else prevCouple

/-- The check-in chain constraints over all clients. -/
def checkInChain (startActId : String) :
    Nat → Option IVar → Option Nat → List (ClientScenario × USchedule) → List Constr
  | _, _, _, [] => []
  | c, pv, pc, (cl, sched) :: rest =>
    let p := checkInChainClient startActId c cl pc pv sched
    p.1 ++ checkInChain startActId (c + 1) p.2 (updatePrevCouple pc cl) rest

/-- Number of check-in slots of a resolved schedule. -/
def countCheckIn (startActId : String) (sched : USchedule) : Nat :=
  sched.countP (fun p => p.2 == startActId)

/-- The single pin constraint a client's check-in slot receives, as a
function of the previous start variable (solver_v2.py:341-347). -/
def pinConstr (a : String) (c : Nat) (cl : ClientScenario) (pc : Option Nat) :
    Option IVar → Constr
  | none => .lin [] (.var (.start c a)) .eq (.const 0)
  | some pvar =>
    if pc == cl.couple_client_no ∧ cl.type = ClientMaritalType.COUPLE then
      .lin [] (.var (.start c a)) .eq (.var pvar)
    else .lin [] (.var pvar) .lt (.var (.start c a))

lemma countCheckIn_cons (a : String) (slot : Slot) (uid : String) (rest : USchedule) :
    countCheckIn a ((slot, uid) :: rest) =
      (if uid = a then 1 else 0) + countCheckIn a rest := by
  unfold countCheckIn
  rw [List.countP_cons]
  by_cases h : uid = a <;> (simp [h]; try omega)

lemma checkInChainClient_zero (a : String) (c : Nat) (cl : ClientScenario)
    (pc : Option Nat) :
    ∀ (sched : USchedule) (pv : Option IVar), countCheckIn a sched = 0 →
      checkInChainClient a c cl pc pv sched = ([], pv) := by
  intro sched
  induction sched with
  | nil => intro pv _; rfl
  | cons p rest ih =>
    intro pv hcnt
    rcases p with ⟨slot, uid⟩
    rw [countCheckIn_cons] at hcnt
    by_cases hu : uid = a
    · rw [if_pos hu] at hcnt
      omega
    · rw [if_neg hu] at hcnt
      simp only [Nat.zero_add] at hcnt
      unfold checkInChainClient
      rw [if_neg hu]
      exact ih pv hcnt

lemma checkInChainClient_one (a : String) (c : Nat) (cl : ClientScenario)
    (pc : Option Nat) :
    ∀ (sched : USchedule) (pv : Option IVar), countCheckIn a sched = 1 →
      checkInChainClient a c cl pc pv sched =
        ([pinConstr a c cl pc pv], some (.start c a)) := by
  intro sched
  induction sched with
  | nil => intro pv h; simp [countCheckIn] at h
  | cons p rest ih =>
    intro pv hcnt
    rcases p with ⟨slot, uid⟩
    rw [countCheckIn_cons] at hcnt
    unfold checkInChainClient
    by_cases hu : uid = a
    · rw [if_pos hu] at hcnt
      subst hu
      have hcnt2 : countCheckIn uid rest = 0 := by omega
      simp only [if_pos rfl,
        checkInChainClient_zero uid c cl pc rest (some (.start c uid)) hcnt2]
      cases pv with
      | none => rfl
      | some pvar =>
        simp only [pinConstr, List.append_nil]
        by_cases hp : (pc == cl.couple_client_no) = true ∧
            cl.type = ClientMaritalType.COUPLE
        · rw [if_pos hp, if_pos hp]
          simp
        · rw [if_neg hp, if_neg hp]
          simp
    · rw [if_neg hu] at hcnt
      simp only [Nat.zero_add] at hcnt
      rw [if_neg hu]
      exact ih pv hcnt

/-- previous_couple_no as seen when visiting client k (0-based within the
list), starting from the value pc. -/
def prevCoupleAt : Option Nat → List ClientScenario → Nat → Option Nat
  | pc, _, 0 => pc
  | pc, [], _ + 1 => pc
  | pc, cl :: rest, k + 1 => prevCoupleAt (updatePrevCouple pc cl) rest k

lemma updatePrevCouple_couple (pc : Option Nat) (cl : ClientScenario)
    (h : cl.type = ClientMaritalType.COUPLE) :
    updatePrevCouple pc cl = cl.couple_client_no := by
  unfold updatePrevCouple
  by_cases h2 : pc = none ∨ pc ≠ cl.couple_client_no
  · rw [if_pos ⟨h, h2⟩]
  · rw [if_neg (by tauto)]
    push_neg at h2
    exact h2.2

/-- The second-partner test of solver_v2.py:344: the previous couple
number equals the client's couple number (Python ==, so None == None is
true) and the client is a couple client. -/
def eqStepB (pc : Option Nat) (cl : ClientScenario) : Prop :=
  (pc == cl.couple_client_no) = true ∧ cl.type = ClientMaritalType.COUPLE

instance (pc : Option Nat) (cl : ClientScenario) : Decidable (eqStepB pc cl) := by
  unfold eqStepB; infer_instance

lemma checkInChain_cons (a : String) (c0 : Nat) (pv : Option IVar) (pc : Option Nat)
    (cl : ClientScenario) (sched : USchedule) (rest : List (ClientScenario × USchedule))
    (h1 : countCheckIn a sched = 1) :
    checkInChain a c0 pv pc ((cl, sched) :: rest) =
      pinConstr a c0 cl pc pv ::
        checkInChain a (c0 + 1) (some (.start c0 a)) (updatePrevCouple pc cl) rest := by
  simp only [checkInChain]
  rw [checkInChainClient_one a c0 cl pc sched pv h1]
  rfl

lemma checkInChain_steps (a : String) (σ : Assign) :
    ∀ (l : List (ClientScenario × USchedule)) (c0 : Nat) (pc : Option Nat) (pv : Option IVar),
      (∀ pair ∈ l, countCheckIn a pair.2 = 1) →
      satisfies σ (checkInChain a c0 pv pc l) = true →
      (∀ h0 : 0 < l.length,
        (pv = none → σ.iv (.start c0 a) = 0) ∧
        (∀ pvar, pv = some pvar →
          (eqStepB pc (l.get ⟨0, h0⟩).1 → σ.iv (.start c0 a) = σ.iv pvar) ∧
          (¬ eqStepB pc (l.get ⟨0, h0⟩).1 → σ.iv pvar < σ.iv (.start c0 a)))) ∧
      (∀ k, ∀ hk : k + 1 < l.length,
        (eqStepB (prevCoupleAt pc (l.map Prod.fst) (k + 1)) (l.get ⟨k + 1, hk⟩).1 →
          σ.iv (.start (c0 + (k + 1)) a) = σ.iv (.start (c0 + k) a)) ∧
        (¬ eqStepB (prevCoupleAt pc (l.map Prod.fst) (k + 1)) (l.get ⟨k + 1, hk⟩).1 →
          σ.iv (.start (c0 + k) a) < σ.iv (.start (c0 + (k + 1)) a))) := by
  intro l
  induction l with
  | nil =>
    intro c0 pc pv _ _
    constructor
    · intro h0; simp at h0
    · intro k hk; simp at hk
  | cons p rest ih =>
    intro c0 pc pv hcnt hsat
    rcases p with ⟨cl, sched⟩
    rw [checkInChain_cons a c0 pv pc cl sched rest (hcnt (cl, sched) (List.mem_cons_self _ _))] at hsat
    have hpin : evalConstr σ (pinConstr a c0 cl pc pv) = true := by
      have := List.all_eq_true.mp hsat
      exact this _ (by simp)
    have hrest : satisfies σ
        (checkInChain a (c0 + 1) (some (.start c0 a)) (updatePrevCouple pc cl) rest)
        = true := by
      unfold satisfies
      rw [List.all_eq_true]
      intro x hx
      exact List.all_eq_true.mp hsat x (by simp [hx])
    have ihr := ih (c0 + 1) (updatePrevCouple pc cl) (some (.start c0 a))
      (fun pair hp => hcnt pair (by simp [hp])) hrest
    constructor
    · intro h0
      constructor
      · intro hnone
        subst hnone
        exact lin_eq_of hpin rfl
      · intro pvar hsome
        subst hsome
        simp only [pinConstr] at hpin
        constructor
        · intro he
          have he2 : (pc == cl.couple_client_no) = true ∧
              cl.type = ClientMaritalType.COUPLE := he
          rw [if_pos he2] at hpin
          exact lin_eq_of hpin rfl
        · intro he
          have he2 : ¬((pc == cl.couple_client_no) = true ∧
              cl.type = ClientMaritalType.COUPLE) := he
          rw [if_neg he2] at hpin
          exact lin_lt_of hpin rfl
    · intro k hk
      cases k with
      | zero =>
        have h0r : 0 < rest.length := by simp at hk; omega
        have hh := (ihr.1 h0r).2 (.start c0 a) rfl
        simp only [List.map_cons]
        have hpc1 : prevCoupleAt pc (cl :: rest.map Prod.fst) (0 + 1) =
            updatePrevCouple pc cl := by simp [prevCoupleAt]
        rw [hpc1]
        have hget : (((cl, sched) :: rest).get ⟨0 + 1, hk⟩) = rest.get ⟨0, h0r⟩ := by rfl
        rw [hget]
        exact hh
      | succ k2 =>
        have hk2 : k2 + 1 < rest.length := by simp at hk; omega
        have hh := ihr.2 k2 hk2
        have e1 : c0 + 1 + (k2 + 1) = c0 + (k2 + 1 + 1) := by omega
        have e2 : c0 + 1 + k2 = c0 + (k2 + 1) := by omega
        rw [e1, e2] at hh
        simp only [List.map_cons]
        have hpc1 : prevCoupleAt pc (cl :: rest.map Prod.fst) (k2 + 1 + 1) =
            prevCoupleAt (updatePrevCouple pc cl) (rest.map Prod.fst) (k2 + 1) := by rfl
        rw [hpc1]
        have hget : (((cl, sched) :: rest).get ⟨k2 + 1 + 1, hk⟩) =
            rest.get ⟨k2 + 1, hk2⟩ := rfl
        rw [hget]
        exact hh

lemma wellPaired_couple_some {l : List ClientScenario} (h : WellPaired l) :
    ∀ k, ∀ hk : k < l.length,
      (l.get ⟨k, hk⟩).type = ClientMaritalType.COUPLE →
      (l.get ⟨k, hk⟩).couple_client_no ≠ none := by
  induction h with
  | nil => intro k hk; simp at hk
  | single s rest hS hn hr ih =>
    intro k hk hc
    cases k with
    | zero => simp only [List.get] at hc; rw [hS] at hc; simp at hc
    | succ k2 => exact ih k2 (by simpa using hk) hc
  | couple s1 s2 rest h1 h2 hid hno hsome hfresh hr ih =>
    intro k hk hc
    cases k with
    | zero => exact hsome
    | succ k2 =>
      cases k2 with
      | zero =>
        show s2.couple_client_no ≠ none
        rw [← hno]
        exact hsome
      | succ k3 => exact ih k3 (by simpa using hk) hc

lemma wellPaired_adjacent {l : List ClientScenario} (h : WellPaired l) :
    ∀ i j, ∀ hi : i < l.length, ∀ hj : j < l.length, i < j →
      (l.get ⟨i, hi⟩).couple_client_no = (l.get ⟨j, hj⟩).couple_client_no →
      (l.get ⟨i, hi⟩).couple_client_no ≠ none →
      j = i + 1 := by
  induction h with
  | nil => intro i j hi; simp at hi
  | single s rest hS hn hr ih =>
    intro i j hi hj hij heq hne
    cases i with
    | zero => exact absurd hn hne
    | succ i2 =>
      cases j with
      | zero => omega
      | succ j2 =>
        have := ih i2 j2 (by simpa using hi) (by simpa using hj) (by omega) heq hne
        omega
  | couple s1 s2 rest h1 h2 hid hno hsome hfresh hr ih =>
    intro i j hi hj hij heq hne
    cases i with
    | zero =>
      cases j with
      | zero => omega
      | succ j2 =>
        cases j2 with
        | zero => rfl
        | succ j3 =>
          exfalso
          have hmem : rest.get ⟨j3, by simpa using hj⟩ ∈ rest := List.get_mem _ _ _
          exact hfresh _ hmem heq.symm
    | succ i2 =>
      cases i2 with
      | zero =>
        cases j with
        | zero => omega
        | succ j2 =>
          cases j2 with
          | zero => omega
          | succ j3 =>
            exfalso
            have hmem : rest.get ⟨j3, by simpa using hj⟩ ∈ rest := List.get_mem _ _ _
            exact hfresh _ hmem (heq.symm.trans hno.symm)
      | succ i3 =>
        cases j with
        | zero => omega
        | succ j2 =>
          cases j2 with
          | zero => omega
          | succ j3 =>
            have := ih i3 j3 (by simpa using hi) (by simpa using hj) (by omega) heq hne
            omega

lemma prevCoupleAt_origin :
    ∀ (l : List ClientScenario) (pc : Option Nat) (k : Nat), k ≤ l.length →
      prevCoupleAt pc l k = pc ∨
      ∃ j, ∃ hj : j < l.length, j < k ∧
        (l.get ⟨j, hj⟩).type = ClientMaritalType.COUPLE ∧
        (l.get ⟨j, hj⟩).couple_client_no = prevCoupleAt pc l k := by
  intro l
  induction l with
  | nil =>
    intro pc k hk
    left
    have hk0 : k = 0 := by simpa using hk
    subst hk0
    rfl
  | cons cl rest ih =>
    intro pc k hk
    cases k with
    | zero => left; rfl
    | succ k2 =>
      have hstep : prevCoupleAt pc (cl :: rest) (k2 + 1) =
          prevCoupleAt (updatePrevCouple pc cl) rest k2 := by rfl
      rw [hstep]
      rcases ih (updatePrevCouple pc cl) k2 (by simpa using hk) with hbase | ⟨j, hj, hjk, hc, he⟩
      · rw [hbase]
        unfold updatePrevCouple
        by_cases hcond : cl.type = ClientMaritalType.COUPLE ∧
            (pc = none ∨ pc ≠ cl.couple_client_no)
        · right
          refine ⟨0, by simp, by omega, hcond.1, ?_⟩
          rw [if_pos hcond]
          rfl
        · left
          rw [if_neg hcond]
      · right
        exact ⟨j + 1, by simpa using hj, by omega, hc, he⟩

lemma prevCoupleAt_succ :
    ∀ (l : List ClientScenario) (pc : Option Nat) (k : Nat), ∀ hk : k < l.length,
      prevCoupleAt pc l (k + 1) =
        updatePrevCouple (prevCoupleAt pc l k) (l.get ⟨k, hk⟩) := by
  intro l
  induction l with
  | nil => intro pc k hk; simp at hk
  | cons cl rest ih =>
    intro pc k hk
    cases k with
    | zero => simp [prevCoupleAt]
    | succ k2 =>
      have h1 : prevCoupleAt pc (cl :: rest) (k2 + 1 + 1) =
          prevCoupleAt (updatePrevCouple pc cl) rest (k2 + 1) := by rfl
      have h2 : prevCoupleAt pc (cl :: rest) (k2 + 1) =
          prevCoupleAt (updatePrevCouple pc cl) rest k2 := by rfl
      rw [h1, h2]
      exact ih (updatePrevCouple pc cl) k2 (by simpa using hk)

lemma eqStep_second_partner {l : List ClientScenario} (h : WellPaired l)
    (k : Nat) (hk : k + 1 < l.length)
    (he : eqStepB (prevCoupleAt none l (k + 1)) (l.get ⟨k + 1, hk⟩)) :
    (l.get ⟨k, by omega⟩).type = ClientMaritalType.COUPLE ∧
    (l.get ⟨k, by omega⟩).couple_client_no = (l.get ⟨k + 1, hk⟩).couple_client_no ∧
    (l.get ⟨k + 1, hk⟩).type = ClientMaritalType.COUPLE := by
  obtain ⟨hbeq, hcouple⟩ := he
  have heq2 : prevCoupleAt none l (k + 1) = (l.get ⟨k + 1, hk⟩).couple_client_no := by
    simpa using hbeq
  have hsome : (l.get ⟨k + 1, hk⟩).couple_client_no ≠ none :=
    wellPaired_couple_some h (k + 1) hk hcouple
  rcases prevCoupleAt_origin l none (k + 1) (by omega) with hb | ⟨j, hj, hjk, hc, hcno⟩
  · rw [hb] at heq2
    exact absurd heq2.symm hsome
  · have hjeq : (l.get ⟨j, hj⟩).couple_client_no =
        (l.get ⟨k + 1, hk⟩).couple_client_no := by
      rw [hcno, heq2]
    have hadj : k + 1 = j + 1 :=
      wellPaired_adjacent h j (k + 1) hj hk (by omega) hjeq (by rw [hjeq]; exact hsome)
    have hjk2 : j = k := by omega
    subst hjk2
    exact ⟨hc, hjeq, hcouple⟩

lemma second_partner_eqStep (l : List ClientScenario) (k : Nat) (hk : k + 1 < l.length)
    (hc : (l.get ⟨k, by omega⟩).type = ClientMaritalType.COUPLE)
    (heq : (l.get ⟨k, by omega⟩).couple_client_no =
      (l.get ⟨k + 1, hk⟩).couple_client_no) :
    (l.get ⟨k + 1, hk⟩).type = ClientMaritalType.COUPLE →
    eqStepB (prevCoupleAt none l (k + 1)) (l.get ⟨k + 1, hk⟩) := by
  intro hc2
  have hstep := prevCoupleAt_succ l none k (by omega)
  unfold eqStepB
  rw [hstep, updatePrevCouple_couple _ _ hc, heq]
  exact ⟨by simp, hc2⟩

/-- Claim C10: in Solver.__define_variables, the first materialized
client's check-in start is pinned to 0; every later client that is not the
second partner of the immediately preceding couple is forced to start
check-in strictly after the previous client; consequently no two
non-partner clients check in at the same instant in any feasible
assignment. -/
theorem claim_c10 (startActId : String) (l : List (ClientScenario × USchedule))
    (σ : Assign)
    (hpair : WellPaired (l.map Prod.fst))
    (hcnt : ∀ pair ∈ l, countCheckIn startActId pair.2 = 1)
    (hsat : satisfies σ (checkInChain startActId 0 none none l) = true) :
    (0 < l.length → σ.iv (.start 0 startActId) = 0) ∧
    (∀ k, ∀ hk : k + 1 < l.length,
      ¬((l.get ⟨k, by omega⟩).1.type = ClientMaritalType.COUPLE ∧
        (l.get ⟨k + 1, hk⟩).1.type = ClientMaritalType.COUPLE ∧
        (l.get ⟨k, by omega⟩).1.couple_client_no =
          (l.get ⟨k + 1, hk⟩).1.couple_client_no) →
      σ.iv (.start k startActId) < σ.iv (.start (k + 1) startActId)) ∧
    (∀ j k, ∀ hj : j < l.length, ∀ hk : k < l.length, j < k →
      ¬((l.get ⟨j, hj⟩).1.type = ClientMaritalType.COUPLE ∧
        (l.get ⟨k, hk⟩).1.type = ClientMaritalType.COUPLE ∧
        (l.get ⟨j, hj⟩).1.couple_client_no = (l.get ⟨k, hk⟩).1.couple_client_no) →
      σ.iv (.start j startActId) ≠ σ.iv (.start k startActId)) := by
  obtain ⟨hhead, hsteps⟩ := checkInChain_steps startActId σ l 0 none none hcnt hsat
  have hmap : ∀ i, ∀ hi : i < l.length,
      (l.map Prod.fst).get ⟨i, by simpa using hi⟩ = (l.get ⟨i, hi⟩).1 := by
    intro i hi
    simp
  have hlen : (l.map Prod.fst).length = l.length := by simp
  -- per-step facts phrased on absolute client indices
  have hstep2 : ∀ k, ∀ hk : k + 1 < l.length,
      (eqStepB (prevCoupleAt none (l.map Prod.fst) (k + 1)) (l.get ⟨k + 1, hk⟩).1 →
        σ.iv (.start (k + 1) startActId) = σ.iv (.start k startActId)) ∧
      (¬ eqStepB (prevCoupleAt none (l.map Prod.fst) (k + 1)) (l.get ⟨k + 1, hk⟩).1 →
        σ.iv (.start k startActId) < σ.iv (.start (k + 1) startActId)) := by
    intro k hk
    have := hsteps k hk
    simpa using this
  -- monotone over distances
  have hmono : ∀ d j, j + d < l.length →
      σ.iv (.start j startActId) ≤ σ.iv (.start (j + d) startActId) := by
    intro d
    induction d with
    | zero => intro j _; simp
    | succ d2 ihd =>
      intro j hj
      have h1 := ihd j (by omega)
      have hk2 : j + d2 + 1 < l.length := by omega
      have h2 := hstep2 (j + d2) hk2
      by_cases he : eqStepB (prevCoupleAt none (l.map Prod.fst) (j + d2 + 1))
          (l.get ⟨j + d2 + 1, hk2⟩).1
      · have := h2.1 he
        have e : j + (d2 + 1) = j + d2 + 1 := by omega
        rw [e]
        omega
      · have := h2.2 he
        have e : j + (d2 + 1) = j + d2 + 1 := by omega
        rw [e]
        omega
  -- equality of a step forces the second-partner pattern
  have hforce : ∀ m, ∀ hm : m + 1 < l.length,
      σ.iv (.start m startActId) = σ.iv (.start (m + 1) startActId) →
      (l.get ⟨m, by omega⟩).1.type = ClientMaritalType.COUPLE ∧
      (l.get ⟨m, by omega⟩).1.couple_client_no =
        (l.get ⟨m + 1, hm⟩).1.couple_client_no ∧
      (l.get ⟨m + 1, hm⟩).1.type = ClientMaritalType.COUPLE := by
    intro m hm hveq
    by_cases he : eqStepB (prevCoupleAt none (l.map Prod.fst) (m + 1))
        (l.get ⟨m + 1, hm⟩).1
    · have hm2 : m + 1 < (l.map Prod.fst).length := by simpa using hm
      have he2 : eqStepB (prevCoupleAt none (l.map Prod.fst) (m + 1))
          ((l.map Prod.fst).get ⟨m + 1, hm2⟩) := by
        rw [hmap (m + 1) hm]
        exact he
      have := eqStep_second_partner hpair m hm2 he2
      rw [hmap (m + 1) hm, hmap m (by omega)] at this
      exact this
    · have := (hstep2 m hm).2 he
      omega
  refine ⟨?_, ?_, ?_⟩
  · intro h0
    exact (hhead h0).1 rfl
  · intro k hk hnp
    by_cases he : eqStepB (prevCoupleAt none (l.map Prod.fst) (k + 1))
        (l.get ⟨k + 1, hk⟩).1
    · exfalso
      have hm2 : k + 1 < (l.map Prod.fst).length := by simpa using hk
      have he2 : eqStepB (prevCoupleAt none (l.map Prod.fst) (k + 1))
          ((l.map Prod.fst).get ⟨k + 1, hm2⟩) := by
        rw [hmap (k + 1) hk]
        exact he
      have hsp := eqStep_second_partner hpair k hm2 he2
      rw [hmap (k + 1) hk, hmap k (by omega)] at hsp
      exact hnp ⟨hsp.1, hsp.2.2, hsp.2.1⟩
    · exact (hstep2 k hk).2 he
  · intro j k hj hk hjk hnp hveq
    -- all steps between j and k are forced equalities
    have hall : ∀ m, j ≤ m → m + 1 ≤ k →
        σ.iv (.start m startActId) = σ.iv (.start (m + 1) startActId) := by
      intro m hjm hmk
      have h1 : σ.iv (.start j startActId) ≤ σ.iv (.start m startActId) := by
        have := hmono (m - j) j (by omega)
        have e : j + (m - j) = m := by omega
        rw [e] at this
        exact this
      have h2 : σ.iv (.start m startActId) ≤ σ.iv (.start (m + 1) startActId) := by
        have := hmono 1 m (by omega)
        simpa using this
      have h3 : σ.iv (.start (m + 1) startActId) ≤ σ.iv (.start k startActId) := by
        have := hmono (k - (m + 1)) (m + 1) (by omega)
        have e : m + 1 + (k - (m + 1)) = k := by omega
        rw [e] at this
        exact this
      omega
    by_cases hk1 : k = j + 1
    · subst hk1
      have hp := hforce j hk (hall j (le_refl j) (le_refl (j + 1)))
      exact hnp ⟨hp.1, hp.2.2, hp.2.1⟩
    · -- two consecutive forced equalities contradict adjacency of couples
      have hj2 : j + 2 ≤ k := by omega
      have hm1 : j + 1 < l.length := by omega
      have hm2 : j + 2 < l.length := by omega
      have hp1 := hforce j hm1 (hall j (le_refl j) (by omega))
      have hp2 := hforce (j + 1) hm2 (hall (j + 1) (by omega) (by omega))
      have hno13 : (l.get ⟨j, hj⟩).1.couple_client_no =
          (l.get ⟨j + 2, hm2⟩).1.couple_client_no := by
        rw [hp1.2.1]
        exact hp2.2.1
      have hsome : (l.get ⟨j, hj⟩).1.couple_client_no ≠ none := by
        have := wellPaired_couple_some hpair j (by simpa using hj)
        rw [hmap j hj] at this
        exact this hp1.1
      have hadj := wellPaired_adjacent hpair j (j + 2) (by simpa using hj)
        (by simpa using hm2) (by omega)
        (by rw [hmap j hj, hmap (j + 2) hm2]; exact hno13)
        (by rw [hmap j hj]; exact hsome)
      omega

/-- Witness data for claim C10: a couple pair followed by a single client,
each with exactly one check-in slot. -/
def c10Client0 : ClientScenario :=
  ⟨0, ClientType.OPTIMAL, ClientMaritalType.COUPLE, ClientSex.MALE, none, some 0⟩

/-- Second partner of the witness couple. -/
def c10Client1 : ClientScenario :=
  ⟨1, ClientType.OPTIMAL, ClientMaritalType.COUPLE, ClientSex.FEMALE, none, some 0⟩

/-- Witness single client. -/
def c10Client2 : ClientScenario :=
  ⟨2, ClientType.OPTIMAL, ClientMaritalType.SINGLE, ClientSex.MALE, some 2, none⟩

/-- Witness client list with one check-in slot each. -/
def c10List : List (ClientScenario × USchedule) :=
  [(c10Client0, [([], "ci")]), (c10Client1, [([], "ci")]), (c10Client2, [([], "ci")])]

/-- Witness assignment: the couple checks in at 0 together, the single at 5. -/
def c10Assign : Assign :=
  ⟨fun v => match v with
    | .start 2 _ => 5
    | _ => 0,
   fun _ => false⟩

/-- Witness for claim C10 at a concrete couple-then-single instance. -/
theorem claim_c10_witness :
    c10Assign.iv (.start 0 "ci") = 0 ∧
    c10Assign.iv (.start 1 "ci") < c10Assign.iv (.start 2 "ci") ∧
    c10Assign.iv (.start 0 "ci") ≠ c10Assign.iv (.start 2 "ci") := by
  have h := claim_c10 "ci" c10List c10Assign
    (WellPaired.couple _ _ _ rfl rfl rfl rfl (by decide) (by decide)
      (WellPaired.single _ _ rfl rfl WellPaired.nil))
    (by decide) (by decide)
  exact ⟨h.1 (by decide), h.2.1 1 (by decide) (by decide),
    h.2.2 0 2 (by decide) (by decide) (by decide) (by decide)⟩

/-! ### Transfer circuit constraints (Solver.__apply_transfer_constraint,
solver_v2.py:513-590)

For every ordered pair of distinct slots of a client the source emits: the
order implication, the floor-difference reification, the optional transfer
interval of length time_transfer guarded by the precedence Boolean, the
transfer start/end pinning on floor changes, the same-floor zero-gap rule
with the couple (check-in, bloods) exception, the 5-minute grid for the
transfer bounds, and the gap-indicator reifications.  The AddCircuit
constraint over the arcs (solver_v2.py:587) only restricts which precedence
Booleans can be true simultaneously and is not needed by the claims, which
are conditional on a precedence Boolean being true. -/

instance : Inhabited ClientScenario :=
  ⟨⟨0, ClientType.OPTIMAL, ClientMaritalType.SINGLE, ClientSex.MALE, none, none⟩⟩

/-- activities[0].id of a slot (solver_v2.py:521). -/
def slotHeadId : Slot → String
  | [] => ""
  | mo :: _ => mo.id

/-- The constraint block of one ordered pair (i, j) of distinct slots with
resolved uids a and b, for a client whose second-couple-partner flag is
exc. -/
def transferPairBlock (allowed : List (String × String))
    (timeMaxGap timeTransfer timeMaxInterval : Int) (c : Nat) (exc : Bool)
    (a b : String) (i j : Nat) : List Constr :=
  [Constr.lin [(.precedes c i j, true)] (.var (.order c a)) .lt (.var (.order c b)),
   Constr.lin [(.tfloor c i j, true)] (.var (.floor c a)) .ne (.var (.floor c b)),
   Constr.lin [(.tfloor c i j, false)] (.var (.floor c a)) .eq (.var (.floor c b)),
   Constr.lin [(.precedes c i j, true)]
     (.add (.var (.tstart c i j)) (.const timeTransfer)) .eq (.var (.tend c i j)),
   Constr.lin [(.tfloor c i j, true), (.precedes c i j, true)]
     (.var (.tstart c i j)) .eq (.var (.endv c a)),
   Constr.lin [(.tfloor c i j, true), (.precedes c i j, true)]
     (.var (.tend c i j)) .eq (.var (.start c b)),
   (if allowed.contains (a, b) && exc then
     Constr.lin [(.tfloor c i j, false), (.precedes c i j, true)]
       (.sub (.var (.start c b)) (.var (.endv c a))) .le (.const timeMaxGap)
   else
     Constr.lin [(.tfloor c i j, false), (.precedes c i j, true)]
       (.var (.start c b)) .eq (.var (.endv c a))),
   Constr.modEq [] (.var (.tstart c i j)) timeMaxInterval 0,
   Constr.modEq [] (.var (.tend c i j)) timeMaxInterval 0,
   Constr.lin [(.consecOrders c i j, true)]
     (.sub (.var (.start c b)) (.var (.endv c a))) .le (.const timeMaxGap),
   Constr.lin [(.consecOrders c i j, false)]
     (.const timeMaxGap) .lt (.sub (.var (.start c b)) (.var (.endv c a))),
   Constr.lin [(.zeroDiff c i j, true)]
     (.sub (.var (.start c b)) (.var (.endv c a))) .ne (.const 0),
   Constr.lin [(.zeroDiff c i j, false)]
     (.sub (.var (.start c b)) (.var (.endv c a))) .eq (.const 0),
   Constr.boolIs [(.tfloor c i j, false), (.precedes c i j, true),
     (.consecOrders c i j, true), (.zeroDiff c i j, true)] (.existingGap c i j) true,
   Constr.boolIs [(.tfloor c i j, false), (.precedes c i j, true),
     (.consecOrders c i j, true), (.zeroDiff c i j, false)] (.existingGap c i j) false]

/-- All pair constraints of one client's schedule. -/
def transferPairConstraints (uids : String → String) (allowed : List (String × String))
    (timeMaxGap timeTransfer timeMaxInterval : Int) (c : Nat) (exc : Bool)
    (sched : Schedule) : List Constr :=
  (List.range sched.length).flatMap fun i =>
    (List.range sched.length).flatMap fun j =>
      if i = j then []
      else
        transferPairBlock allowed timeMaxGap timeTransfer timeMaxInterval c exc
          (uids (slotHeadId (sched.getD i []))) (uids (slotHeadId (sched.getD j [])))
          i j

/-- The transfer constraints over all clients, threading previous_couple_no
exactly as solver_v2.py:516 and 588-590 do. -/
def transferConstraints (uids : String → String) (allowed : List (String × String))
    (timeMaxGap timeTransfer timeMaxInterval : Int) :
    Nat → Option Nat → List (ClientScenario × Schedule) → List Constr
  | _, _, [] => []
  | c, pc, (cl, sched) :: rest =>
    transferPairConstraints uids allowed timeMaxGap timeTransfer timeMaxInterval c
      ((pc == cl.couple_client_no) && (cl.type == ClientMaritalType.COUPLE)) sched
      ++ transferConstraints uids allowed timeMaxGap timeTransfer timeMaxInterval
          (c + 1) (updatePrevCouple pc cl) rest

/-- The second-couple-partner flag as seen by the transfer loop for client
index c. -/
def excAt : Option Nat → List (ClientScenario × Schedule) → Nat → Bool
  | _, [], _ => false
  | pc, (cl, _) :: _, 0 =>
    (pc == cl.couple_client_no) && (cl.type == ClientMaritalType.COUPLE)
  | pc, (cl, _) :: rest, c + 1 => excAt (updatePrevCouple pc cl) rest c

lemma excAt_couple :
    ∀ (l : List (ClientScenario × Schedule)) (pc : Option Nat) (c : Nat),
      ∀ hc : c < l.length,
      excAt pc l c = true → (l.get ⟨c, hc⟩).1.type = ClientMaritalType.COUPLE := by
  intro l
  induction l with
  | nil => intro pc c hc; simp at hc
  | cons p rest ih =>
    intro pc c hc he
    rcases p with ⟨cl, sched⟩
    cases c with
    | zero =>
      simp only [excAt, Bool.and_eq_true, beq_iff_eq] at he
      exact he.2
    | succ c2 => exact ih (updatePrevCouple pc cl) c2 (by simpa using hc) he

lemma transferConstraints_client :
    ∀ (l : List (ClientScenario × Schedule)) (uids : String → String)
      (allowed : List (String × String)) (g t m : Int) (c0 : Nat) (pc : Option Nat)
      (c : Nat), ∀ hc : c < l.length, ∀ x : Constr,
      x ∈ transferPairConstraints uids allowed g t m (c0 + c) (excAt pc l c)
        (l.get ⟨c, hc⟩).2 →
      x ∈ transferConstraints uids allowed g t m c0 pc l := by
  intro l
  induction l with
  | nil => intro _ _ _ _ _ _ _ c hc; simp at hc
  | cons p rest ih =>
    intro uids allowed g t m c0 pc c hc x hx
    rcases p with ⟨cl, sched⟩
    unfold transferConstraints
    rw [List.mem_append]
    cases c with
    | zero =>
      left
      simpa using hx
    | succ c2 =>
      right
      have := ih uids allowed g t m (c0 + 1) (updatePrevCouple pc cl) c2
        (by simpa using hc) x
      apply this
      have e : c0 + 1 + c2 = c0 + (c2 + 1) := by omega
      rw [e]
      exact hx

lemma transferPairBlock_mem :
    ∀ (uids : String → String) (allowed : List (String × String)) (g t m : Int)
      (c : Nat) (exc : Bool) (sched : Schedule) (i j : Nat),
      i < sched.length → j < sched.length → i ≠ j →
      ∀ x ∈ transferPairBlock allowed g t m c exc
        (uids (slotHeadId (sched.getD i []))) (uids (slotHeadId (sched.getD j []))) i j,
      x ∈ transferPairConstraints uids allowed g t m c exc sched := by
  intro uids allowed g t m c exc sched i j hi hj hij x hx
  unfold transferPairConstraints
  rw [List.mem_flatMap]
  refine ⟨i, List.mem_range.mpr hi, ?_⟩
  rw [List.mem_flatMap]
  refine ⟨j, List.mem_range.mpr hj, ?_⟩
  rw [if_neg hij]
  exact hx

/-- Claim C2: in every assignment satisfying the emitted transfer
constraints, a pair of slots marked consecutive by the circuit Boolean and
lying on the same floor has zero gap (the successor starts exactly at the
predecessor's end), except that for a couple client the allowed pair
(check-in, bloods) may instead have a gap of at most time_max_gap
minutes. -/
theorem claim_c2 (uids : String → String) (ciId bloodsId : String)
    (timeMaxGap timeTransfer timeMaxInterval : Int)
    (l : List (ClientScenario × Schedule)) (σ : Assign)
    (hsat : satisfies σ (transferConstraints uids [(ciId, bloodsId)] timeMaxGap
      timeTransfer timeMaxInterval 0 none l) = true) :
    ∀ c, ∀ hc : c < l.length, ∀ i j, i < (l.get ⟨c, hc⟩).2.length →
      j < (l.get ⟨c, hc⟩).2.length → i ≠ j → ∀ a b : String,
      a = uids (slotHeadId ((l.get ⟨c, hc⟩).2.getD i [])) →
      b = uids (slotHeadId ((l.get ⟨c, hc⟩).2.getD j [])) →
      σ.bv (.precedes c i j) = true →
      σ.iv (.floor c a) = σ.iv (.floor c b) →
      σ.iv (.start c b) = σ.iv (.endv c a) ∨
        ((l.get ⟨c, hc⟩).1.type = ClientMaritalType.COUPLE ∧ (a, b) = (ciId, bloodsId) ∧
          σ.iv (.start c b) - σ.iv (.endv c a) ≤ timeMaxGap) := by
  intro c hc i j hi hj hij a b ha hb hprec hfloor
  have hmem : ∀ x ∈ transferPairBlock [(ciId, bloodsId)] timeMaxGap timeTransfer
      timeMaxInterval c (excAt none l c) a b i j,
      x ∈ transferConstraints uids [(ciId, bloodsId)] timeMaxGap timeTransfer
        timeMaxInterval 0 none l := by
    intro x hx
    apply transferConstraints_client l uids [(ciId, bloodsId)] timeMaxGap timeTransfer
      timeMaxInterval 0 none c hc
    rw [Nat.zero_add]
    apply transferPairBlock_mem uids [(ciId, bloodsId)] timeMaxGap timeTransfer
      timeMaxInterval c (excAt none l c) _ i j hi hj hij
    rw [← ha, ← hb]
    exact hx
  have htf : σ.bv (.tfloor c i j) = false := by
    cases hbv : σ.bv (.tfloor c i j) with
    | false => rfl
    | true =>
      exfalso
      have hne : evalConstr σ (Constr.lin [(.tfloor c i j, true)]
          (.var (.floor c a)) .ne (.var (.floor c b))) = true :=
        satisfies_mem hsat (hmem _ (by simp [transferPairBlock]))
      have := lin_ne_of hne (by simp [evalEnf, evalLit, hbv])
      exact this hfloor
  by_cases hexc : ([(ciId, bloodsId)].contains (a, b) && excAt none l c) = true
  · right
    have hcontains : (a, b) = (ciId, bloodsId) := by
      have h1 := (Bool.and_eq_true _ _).mp hexc
      have h2 := h1.1
      simp [List.contains] at h2
      exact Prod.ext h2.1 h2.2
    have hcouple : (l.get ⟨c, hc⟩).1.type = ClientMaritalType.COUPLE := by
      have h1 := (Bool.and_eq_true _ _).mp hexc
      exact excAt_couple l none c hc h1.2
    have hle : evalConstr σ (Constr.lin [(.tfloor c i j, false), (.precedes c i j, true)]
        (.sub (.var (.start c b)) (.var (.endv c a))) .le (.const timeMaxGap)) = true := by
      apply satisfies_mem hsat
      apply hmem
      simp only [transferPairBlock, if_pos hexc]
      simp
    have h2 := lin_le_of hle (by simp [evalEnf, evalLit, htf, hprec])
    exact ⟨hcouple, hcontains, by simpa [evalE] using h2⟩
  · left
    have heq : evalConstr σ (Constr.lin [(.tfloor c i j, false), (.precedes c i j, true)]
        (.var (.start c b)) .eq (.var (.endv c a))) = true := by
      apply satisfies_mem hsat
      apply hmem
      simp only [transferPairBlock, if_neg hexc]
      simp
    have h2 := lin_eq_of heq (by simp [evalEnf, evalLit, htf, hprec])
    simpa [evalE] using h2

/-- Witness data for claim C2: one single client with two same-floor
slots. -/
def c2Client : ClientScenario :=
  ⟨0, ClientType.OPTIMAL, ClientMaritalType.SINGLE, ClientSex.MALE, some 0, none⟩

/-- First witness slot mode (activity A, room r1, floor 0). -/
def c2ModeA : ActivityMode :=
  ⟨some 10, "A", "r1", 0, 0, ClientSex.MALE, ClientType.OPTIMAL, ClientMaritalType.SINGLE⟩

/-- Second witness slot mode (activity B, room r1, floor 0). -/
def c2ModeB : ActivityMode :=
  ⟨some 10, "B", "r1", 0, 0, ClientSex.MALE, ClientType.OPTIMAL, ClientMaritalType.SINGLE⟩

/-- Witness client list for claim C2. -/
def c2List : List (ClientScenario × Schedule) := [(c2Client, [[c2ModeA], [c2ModeB]])]

/-- Witness assignment for claim C2: A runs 0-10, B runs 10-20 back to
back on the same floor. -/
def c2Assign : Assign :=
  ⟨fun v => match v with
    | .start _ "A" => 0
    | .endv _ "A" => 10
    | .start _ "B" => 10
    | .endv _ "B" => 20
    | .order _ "B" => 1
    | .tend _ 0 1 => 5
    | _ => 0,
   fun b => match b with
    | .precedes _ 0 1 => true
    | .consecOrders _ _ _ => true
    | .zeroDiff _ 1 0 => true
    | _ => false⟩

/-- Witness for claim C2 at a concrete two-slot schedule with a satisfying
assignment: slot 0 precedes slot 1 on the same floor, and indeed slot 1
starts exactly at slot 0's end. -/
theorem claim_c2_witness :
    c2Assign.iv (.start 0 "B") = c2Assign.iv (.endv 0 "A") ∨
      ((c2List.get ⟨0, by decide⟩).1.type = ClientMaritalType.COUPLE ∧
        (("A" : String), ("B" : String)) = ("ci", "bl") ∧
        c2Assign.iv (.start 0 "B") - c2Assign.iv (.endv 0 "A") ≤ 10) :=
  claim_c2 id "ci" "bl" 10 5 5 c2List c2Assign (by decide) 0 (by decide) 0 1
    (by decide) (by decide) (by decide) "A" "B" rfl rfl rfl rfl

/-! ### Transfer decoding (solver_v2.py:1240-1249) -/

/-- The insertion-ordered keys of the transfer_starts dict: client-major,
then predecessor slot index, then successor slot index. -/
def transferKeys : Nat → List (ClientScenario × Schedule) → List (Nat × Nat × Nat)
  | _, [] => []
  | c, (_, sched) :: rest =>
    ((List.range sched.length).flatMap fun i =>
      (List.range sched.length).flatMap fun j =>
        if i = j then [] else [(c, i, j)]) ++ transferKeys (c + 1) rest

lemma transferKeys_mem :
    ∀ (l : List (ClientScenario × Schedule)) (c0 c : Nat), ∀ hc : c < l.length,
      ∀ i j, i < (l.get ⟨c, hc⟩).2.length → j < (l.get ⟨c, hc⟩).2.length → i ≠ j →
      (c0 + c, i, j) ∈ transferKeys c0 l := by
  intro l
  induction l with
  | nil => intro c0 c hc; simp at hc
  | cons p rest ih =>
    intro c0 c hc i j hi hj hij
    rcases p with ⟨cl, sched⟩
    unfold transferKeys
    rw [List.mem_append]
    cases c with
    | zero =>
      left
      rw [List.mem_flatMap]
      refine ⟨i, List.mem_range.mpr hi, ?_⟩
      rw [List.mem_flatMap]
      refine ⟨j, List.mem_range.mpr hj, ?_⟩
      rw [if_neg hij]
      simp
    | succ c2 =>
      right
      have := ih (c0 + 1) c2 (by simpa using hc) i j hi hj hij
      have e : c0 + 1 + c2 = c0 + (c2 + 1) := by omega
      rw [e] at this
      exact this

/-- One decoded synthetic Transfer entry: the transfer key it came from,
the assigned time (the transfer start floor-divided by 5,
solver_v2.py:1247), and the hard-coded 5-minute default allocation
(solver_v2.py:1245). -/
structure DecodedTransfer where
  key : Nat × Nat × Nat
  assigned_time : Int
  default_time : Int
deriving DecidableEq, Repr

/-- The decoder loop of solver_v2.py:1240-1249: a Transfer entry is
emitted for a key exactly when the precedence Boolean and the
floor-difference Boolean hold and the key belongs to the client. -/
def decodeTransfers (σ : Assign) (keys : List (Nat × Nat × Nat)) (c : Nat) :
    List DecodedTransfer :=
  keys.filterMap fun k =>
    if σ.bv (.precedes k.1 k.2.1 k.2.2) && σ.bv (.tfloor k.1 k.2.1 k.2.2) && (k.1 == c)
    then some ⟨k, (σ.iv (.tstart k.1 k.2.1 k.2.2)).fdiv 5, 5⟩
    else none

lemma fdiv_five_exact (a : Int) (h : a % 5 = 0) : a.fdiv 5 * 5 = a := by
  obtain ⟨k, rfl⟩ := Int.dvd_of_emod_eq_zero h
  rw [Int.mul_fdiv_cancel_left k (by norm_num)]
  ring

/-- Claim C5: under the emitted transfer constraints, a decoded Transfer
entry appears between a client's two circuit-consecutive slots iff their
floors differ; every such entry records the 5-minute transfer whose start
equals the predecessor's end and whose end equals the successor's start. -/
theorem claim_c5 (uids : String → String) (allowed : List (String × String))
    (timeMaxGap : Int) (l : List (ClientScenario × Schedule)) (σ : Assign)
    (hsat : satisfies σ
      (transferConstraints uids allowed timeMaxGap 5 5 0 none l) = true) :
    ∀ c, ∀ hc : c < l.length, ∀ i j, i < (l.get ⟨c, hc⟩).2.length →
      j < (l.get ⟨c, hc⟩).2.length → i ≠ j → ∀ a b : String,
      a = uids (slotHeadId ((l.get ⟨c, hc⟩).2.getD i [])) →
      b = uids (slotHeadId ((l.get ⟨c, hc⟩).2.getD j [])) →
      σ.bv (.precedes c i j) = true →
      ((∃ e ∈ decodeTransfers σ (transferKeys 0 l) c, e.key = (c, i, j)) ↔
        σ.iv (.floor c a) ≠ σ.iv (.floor c b)) ∧
      (σ.iv (.floor c a) ≠ σ.iv (.floor c b) →
        σ.iv (.tstart c i j) = σ.iv (.endv c a) ∧
        σ.iv (.tend c i j) = σ.iv (.start c b) ∧
        σ.iv (.tend c i j) = σ.iv (.tstart c i j) + 5 ∧
        ∀ e ∈ decodeTransfers σ (transferKeys 0 l) c, e.key = (c, i, j) →
          e.assigned_time * 5 = σ.iv (.endv c a) ∧ e.default_time = 5) := by
  intro c hc i j hi hj hij a b ha hb hprec
  have hmem : ∀ x ∈ transferPairBlock allowed timeMaxGap 5 5 c (excAt none l c) a b i j,
      x ∈ transferConstraints uids allowed timeMaxGap 5 5 0 none l := by
    intro x hx
    apply transferConstraints_client l uids allowed timeMaxGap 5 5 0 none c hc
    rw [Nat.zero_add]
    apply transferPairBlock_mem uids allowed timeMaxGap 5 5 c (excAt none l c) _ i j
      hi hj hij
    rw [← ha, ← hb]
    exact hx
  have htf_iff : σ.bv (.tfloor c i j) = true ↔
      σ.iv (.floor c a) ≠ σ.iv (.floor c b) := by
    constructor
    · intro htf
      have hne : evalConstr σ (Constr.lin [(.tfloor c i j, true)]
          (.var (.floor c a)) .ne (.var (.floor c b))) = true :=
        satisfies_mem hsat (hmem _ (by simp [transferPairBlock]))
      exact lin_ne_of hne (by simp [evalEnf, evalLit, htf])
    · intro hne
      cases htf : σ.bv (.tfloor c i j) with
      | true => rfl
      | false =>
        exfalso
        have heqc : evalConstr σ (Constr.lin [(.tfloor c i j, false)]
            (.var (.floor c a)) .eq (.var (.floor c b))) = true :=
          satisfies_mem hsat (hmem _ (by simp [transferPairBlock]))
        exact hne (lin_eq_of heqc (by simp [evalEnf, evalLit, htf]))
  constructor
  · constructor
    · rintro ⟨e, he, hkey⟩
      rw [← htf_iff]
      unfold decodeTransfers at he
      rw [List.mem_filterMap] at he
      rcases he with ⟨k, _, hke⟩
      by_cases hcond : (σ.bv (.precedes k.1 k.2.1 k.2.2) &&
          σ.bv (.tfloor k.1 k.2.1 k.2.2) && (k.1 == c)) = true
      · rw [if_pos hcond] at hke
        injection hke with hke2
        subst hke2
        have hk : k = (c, i, j) := hkey
        subst hk
        simp only [Bool.and_eq_true] at hcond
        exact hcond.1.2
      · rw [if_neg hcond] at hke
        exact absurd hke (by simp)
    · intro hne
      have htf := htf_iff.mpr hne
      refine ⟨⟨(c, i, j), (σ.iv (.tstart c i j)).fdiv 5, 5⟩, ?_, rfl⟩
      unfold decodeTransfers
      rw [List.mem_filterMap]
      refine ⟨(c, i, j), ?_, ?_⟩
      · have := transferKeys_mem l 0 c hc i j hi hj hij
        simpa using this
      · simp [hprec, htf]
  · intro hne
    have htf := htf_iff.mpr hne
    have h5 : evalConstr σ (Constr.lin [(.tfloor c i j, true), (.precedes c i j, true)]
        (.var (.tstart c i j)) .eq (.var (.endv c a))) = true :=
      satisfies_mem hsat (hmem _ (by simp [transferPairBlock]))
    have h6 : evalConstr σ (Constr.lin [(.tfloor c i j, true), (.precedes c i j, true)]
        (.var (.tend c i j)) .eq (.var (.start c b))) = true :=
      satisfies_mem hsat (hmem _ (by simp [transferPairBlock]))
    have h4 : evalConstr σ (Constr.lin [(.precedes c i j, true)]
        (.add (.var (.tstart c i j)) (.const 5)) .eq (.var (.tend c i j))) = true :=
      satisfies_mem hsat (hmem _ (by simp [transferPairBlock]))
    have hts := lin_eq_of h5 (by simp [evalEnf, evalLit, htf, hprec])
    have hte := lin_eq_of h6 (by simp [evalEnf, evalLit, htf, hprec])
    have hint := lin_eq_of h4 (by simp [evalEnf, evalLit, hprec])
    have hmod : evalConstr σ (Constr.modEq [] (.var (.tstart c i j)) 5 0) = true :=
      satisfies_mem hsat (hmem _ (by simp [transferPairBlock]))
    have hmodv := modEq_of hmod rfl
    refine ⟨by simpa [evalE] using hts, by simpa [evalE] using hte,
      by simp only [evalE] at hint ⊢; omega, ?_⟩
    intro e he hkey
    unfold decodeTransfers at he
    rw [List.mem_filterMap] at he
    rcases he with ⟨k, _, hke⟩
    by_cases hcond : (σ.bv (.precedes k.1 k.2.1 k.2.2) &&
        σ.bv (.tfloor k.1 k.2.1 k.2.2) && (k.1 == c)) = true
    · rw [if_pos hcond] at hke
      injection hke with hke2
      subst hke2
      have hk : k = (c, i, j) := hkey
      subst hk
      constructor
      · show (σ.iv (.tstart c i j)).fdiv 5 * 5 = σ.iv (.endv c a)
        have hdv : σ.iv (.tstart c i j) % 5 = 0 := by simpa [evalE] using hmodv
        rw [fdiv_five_exact _ hdv]
        simpa [evalE] using hts
      · rfl
    · rw [if_neg hcond] at hke
      exact absurd hke (by simp)

/-- Witness client for claim C5 (a single client). -/
def c5Client : ClientScenario :=
  ⟨0, ClientType.OPTIMAL, ClientMaritalType.SINGLE, ClientSex.MALE, none, none⟩

/-- First witness slot mode for claim C5 (activity A, room r1, floor 0). -/
def c5ModeA : ActivityMode :=
  ⟨some 10, "A", "r1", 0, 0, ClientSex.MALE, ClientType.OPTIMAL, ClientMaritalType.SINGLE⟩

/-- Second witness slot mode for claim C5 (activity B, room r2, floor 1). -/
def c5ModeB : ActivityMode :=
  ⟨some 10, "B", "r2", 1, 0, ClientSex.MALE, ClientType.OPTIMAL, ClientMaritalType.SINGLE⟩

/-- Witness client list for claim C5. -/
def c5List : List (ClientScenario × Schedule) := [(c5Client, [[c5ModeA], [c5ModeB]])]

/-- Witness assignment for claim C5: A runs 0-10 on floor 0, B runs 15-25
on floor 1, with the 5-minute transfer occupying 10-15. -/
def c5Assign : Assign :=
  ⟨fun v => match v with
    | .start _ "A" => 0
    | .endv _ "A" => 10
    | .start _ "B" => 15
    | .endv _ "B" => 25
    | .order _ "B" => 1
    | .floor _ "B" => 1
    | .tstart _ 0 1 => 10
    | .tend _ 0 1 => 15
    | _ => 0,
   fun b => match b with
    | .precedes _ 0 1 => true
    | .tfloor _ _ _ => true
    | .consecOrders _ _ _ => true
    | .zeroDiff _ _ _ => true
    | _ => false⟩

/-- Witness for claim C5: on the concrete cross-floor schedule the decoder
emits an entry for the pair and the transfer interval is pinned between
the two activities. -/
theorem claim_c5_witness :
    (∃ e ∈ decodeTransfers c5Assign (transferKeys 0 c5List) 0, e.key = (0, 0, 1)) ∧
    c5Assign.iv (.tstart 0 0 1) = c5Assign.iv (.endv 0 "A") ∧
    c5Assign.iv (.tend 0 0 1) = c5Assign.iv (.start 0 "B") ∧
    c5Assign.iv (.tend 0 0 1) = c5Assign.iv (.tstart 0 0 1) + 5 := by
  have h := claim_c5 id [("ci", "bl")] 10 c5List c5Assign (by decide) 0 (by decide)
    0 1 (by decide) (by decide) (by decide) "A" "B" rfl rfl rfl
  have hne : c5Assign.iv (.floor 0 "A") ≠ c5Assign.iv (.floor 0 "B") := by decide
  obtain ⟨hiff, himp⟩ := h
  obtain ⟨h1, h2, h3, _⟩ := himp hne
  exact ⟨hiff.mpr hne, h1, h2, h3⟩

/-! ### Status dispatch of Solver.generate (solver_v2.py:1212-1254) -/

/-- The CP-SAT solver statuses of ortools cp_model. -/
inductive CpSolverStatus where
  | UNKNOWN
  | MODEL_INVALID
  | FEASIBLE
  | INFEASIBLE
  | OPTIMAL
deriving DecidableEq, Repr

/-- The tail of Solver.generate: raise ValueError('Cannot generate
schedule') when the status is neither OPTIMAL nor FEASIBLE
(solver_v2.py:1212-1213); otherwise decode every client's schedule
(solver_v2.py:1215-1254, transfers decoded per client by
decodeTransfers). -/
def generateSchedules (status : CpSolverStatus) (σ : Assign)
    (keys : List (Nat × Nat × Nat)) (n : Nat) :
    Except String (List (List DecodedTransfer)) :=
  if status ≠ CpSolverStatus.OPTIMAL ∧ status ≠ CpSolverStatus.FEASIBLE then
    Except.error "Cannot generate schedule"
  else
    Except.ok ((List.range n).map fun c => decodeTransfers σ keys c)

/-- Claim C3: generate fails with an error iff the solver status is
neither OPTIMAL nor FEASIBLE, and on OPTIMAL or FEASIBLE it returns the
decoded per-client schedules. -/
theorem claim_c3 (status : CpSolverStatus) (σ : Assign)
    (keys : List (Nat × Nat × Nat)) (n : Nat) :
    ((∃ e, generateSchedules status σ keys n = Except.error e) ↔
      status ≠ CpSolverStatus.OPTIMAL ∧ status ≠ CpSolverStatus.FEASIBLE) ∧
    (generateSchedules status σ keys n =
        Except.ok ((List.range n).map fun c => decodeTransfers σ keys c) ↔
      status = CpSolverStatus.OPTIMAL ∨ status = CpSolverStatus.FEASIBLE) := by
  cases status <;> simp [generateSchedules]

/-! ### MRI separation (Solver.__apply_gap_between_activity_constraint,
solver_v2.py:483-505)

starts_per_activity / ends_per_activity are defaultdicts filled per
client and slot at solver_v2.py:352-353, so a missing (None) MRI id
contributes no variables. In the pairwise loops at solver_v2.py:494-505
the skip condition `start == other_start` is evaluated on ortools
IntVars: IntVar.__eq__ (inherited from LinearExpr, the overload behind
every model.Add(x == y) in this file) returns a BoundedLinearExpression
object, never a bool. As the condition of an `if` that object is truthy
as a plain object (older ortools define no `__bool__`; newer ones raise
there), so the `continue` fires on every iteration and the pairwise
start/start and end/end disequalities of lines 498 and 505 are never
added to the model. Only the start != end constraints of lines 490-492
are emitted: the pairwise distinctness of starts and of ends that the
spec asserts is not enforced. -/

/-- The start variables collected for one activity uid, in client order
(solver_v2.py:352). -/
def uidStarts (u : String) : Nat → List USchedule → List IVar
  | _, [] => []
  | c, sched :: rest =>
    sched.filterMap (fun p => if p.2 = u then some (IVar.start c p.2) else none)
      ++ uidStarts u (c + 1) rest

/-- The end variables collected for one activity uid, in client order
(solver_v2.py:353). -/
def uidEnds (u : String) : Nat → List USchedule → List IVar
  | _, [] => []
  | c, sched :: rest =>
    sched.filterMap (fun p => if p.2 = u then some (IVar.endv c p.2) else none)
      ++ uidEnds u (c + 1) rest

/-- All start variables of the given activity ids (solver_v2.py:486). -/
def mriStarts (ids : List String) (l : List USchedule) : List IVar :=
  ids.flatMap fun u => uidStarts u 0 l

/-- All end variables of the given activity ids (solver_v2.py:488). -/
def mriEnds (ids : List String) (l : List USchedule) : List IVar :=
  ids.flatMap fun u => uidEnds u 0 l

/-- The constraints actually emitted by
__apply_gap_between_activity_constraint: every collected start must
differ from every collected end (solver_v2.py:490-492). The other_start
and other_end loops of lines 494-505 contribute nothing, because their
skip condition is an always-truthy BoundedLinearExpression (see the
section comment) and every iteration continues. -/
def gapBetweenActivity (starts ends : List IVar) : List Constr :=
  starts.flatMap fun s => ends.map fun e => Constr.lin [] (.var s) .ne (.var e)

lemma gapBetweenActivity_mem_se {starts ends : List IVar} {s e : IVar}
    (h1 : s ∈ starts) (h2 : e ∈ ends) :
    Constr.lin [] (.var s) .ne (.var e) ∈ gapBetweenActivity starts ends := by
  unfold gapBetweenActivity
  rw [List.mem_flatMap]
  exact ⟨s, h1, List.mem_map.mpr ⟨e, h2, rfl⟩⟩

lemma uidStarts_mem :
    ∀ (l : List USchedule) (u : String) (c0 c : Nat), ∀ hc : c < l.length,
      ∀ p ∈ l.get ⟨c, hc⟩, p.2 = u → IVar.start (c0 + c) u ∈ uidStarts u c0 l := by
  intro l
  induction l with
  | nil => intro u c0 c hc; simp at hc
  | cons sched rest ih =>
    intro u c0 c hc p hp hpu
    unfold uidStarts
    rw [List.mem_append]
    cases c with
    | zero =>
      left
      rw [List.mem_filterMap]
      refine ⟨p, hp, ?_⟩
      rw [if_pos hpu, hpu]
      simp
    | succ c2 =>
      right
      have := ih u (c0 + 1) c2 (by simpa using hc) p hp hpu
      have e : c0 + 1 + c2 = c0 + (c2 + 1) := by omega
      rw [e] at this
      exact this

lemma uidEnds_mem :
    ∀ (l : List USchedule) (u : String) (c0 c : Nat), ∀ hc : c < l.length,
      ∀ p ∈ l.get ⟨c, hc⟩, p.2 = u → IVar.endv (c0 + c) u ∈ uidEnds u c0 l := by
  intro l
  induction l with
  | nil => intro u c0 c hc; simp at hc
  | cons sched rest ih =>
    intro u c0 c hc p hp hpu
    unfold uidEnds
    rw [List.mem_append]
    cases c with
    | zero =>
      left
      rw [List.mem_filterMap]
      refine ⟨p, hp, ?_⟩
      rw [if_pos hpu, hpu]
      simp
    | succ c2 =>
      right
      have := ih u (c0 + 1) c2 (by simpa using hc) p hp hpu
      have e : c0 + 1 + c2 = c0 + (c2 + 1) := by omega
      rw [e] at this
      exact this

/-- Claim C8 (what the emitted constraints actually force): every
collected MRI start value differs from every collected MRI end value —
across clients, any MRI slot's start differs from any MRI slot's end.
Nothing constrains two starts, or two ends, against each other. -/
theorem claim_c8 (eliteId ultimateId : String) (l : List USchedule) (σ : Assign)
    (hsat : satisfies σ (gapBetweenActivity (mriStarts [eliteId, ultimateId] l)
      (mriEnds [eliteId, ultimateId] l)) = true) :
    (∀ s ∈ mriStarts [eliteId, ultimateId] l, ∀ e ∈ mriEnds [eliteId, ultimateId] l,
      σ.iv s ≠ σ.iv e) ∧
    (∀ c1 c2 : Nat, ∀ hc1 : c1 < l.length, ∀ hc2 : c2 < l.length,
      ∀ p1 ∈ l.get ⟨c1, hc1⟩, ∀ p2 ∈ l.get ⟨c2, hc2⟩,
      (p1.2 = eliteId ∨ p1.2 = ultimateId) → (p2.2 = eliteId ∨ p2.2 = ultimateId) →
      σ.iv (.start c1 p1.2) ≠ σ.iv (.endv c2 p2.2)) := by
  have hse : ∀ s ∈ mriStarts [eliteId, ultimateId] l,
      ∀ e ∈ mriEnds [eliteId, ultimateId] l, σ.iv s ≠ σ.iv e := by
    intro s h1 e h2
    have h := satisfies_mem hsat (gapBetweenActivity_mem_se h1 h2)
    exact lin_ne_of h rfl
  refine ⟨hse, ?_⟩
  intro c1 c2 hc1 hc2 p1 hp1 p2 hp2 hu1 hu2
  have hm1 : IVar.start c1 p1.2 ∈ mriStarts [eliteId, ultimateId] l := by
    unfold mriStarts
    rw [List.mem_flatMap]
    refine ⟨p1.2, by rcases hu1 with h | h <;> simp [h], ?_⟩
    have := uidStarts_mem l p1.2 0 c1 hc1 p1 hp1 rfl
    simpa using this
  have hm4 : IVar.endv c2 p2.2 ∈ mriEnds [eliteId, ultimateId] l := by
    unfold mriEnds
    rw [List.mem_flatMap]
    refine ⟨p2.2, by rcases hu2 with h | h <;> simp [h], ?_⟩
    have := uidEnds_mem l p2.2 0 c2 hc2 p2 hp2 rfl
    simpa using this
  exact hse _ hm1 _ hm4

/-- Client list for the claim C8 instances: two clients, each with one
MRI slot (an Optimal variant and an Ultimate variant). -/
def c8List : List USchedule := [[([], "mriO")], [([], "mriU")]]

/-- Witness assignment for claim C8: the two MRI slots run 0-10 and
30-40. -/
def c8Assign : Assign :=
  ⟨fun v => match v with
    | .start 1 "mriU" => 30
    | .endv 0 "mriO" => 10
    | .endv 1 "mriU" => 40
    | _ => 0,
   fun _ => false⟩

/-- Witness for claim C8 on the concrete two-client MRI schedule: the
first slot's start differs from the second slot's end. -/
theorem claim_c8_witness :
    c8Assign.iv (.start 0 "mriO") ≠ c8Assign.iv (.endv 1 "mriU") := by
  have h := claim_c8 "mriO" "mriU" c8List c8Assign (by decide)
  exact h.2 0 1 (by decide) (by decide) ([], "mriO") (by decide)
    ([], "mriU") (by decide) (by decide) (by decide)

/-- An assignment in which both MRI slots start together and end
together: every start is 0 and every end variable is 10. -/
def c8AssignEq : Assign :=
  ⟨fun v => match v with
    | .endv _ _ => 10
    | _ => 0,
   fun _ => false⟩

/-- Claim C8 (counterexample): the constraint set the code emits for two
distinct MRI slots is satisfied by an assignment in which both slots
start at the same instant and end at the same instant — the pairwise
distinctness of starts and of ends asserted by the spec is not enforced,
because the always-firing continue of solver_v2.py:495/501 suppresses
every pairwise start/start and end/end disequality. -/
theorem claim_c8_counterexample :
    satisfies c8AssignEq (gapBetweenActivity (mriStarts ["mriO", "mriU"] c8List)
      (mriEnds ["mriO", "mriU"] c8List)) = true ∧
    IVar.start 0 "mriO" ≠ IVar.start 1 "mriU" ∧
    c8AssignEq.iv (.start 0 "mriO") = c8AssignEq.iv (.start 1 "mriU") ∧
    c8AssignEq.iv (.endv 0 "mriO") = c8AssignEq.iv (.endv 1 "mriU") := by
  decide

/-! ### Same-room coupling (solver_v2.py:355-389, 435-437, 948-967)

The rooms dict maps (client_id, activity_uid, room_id) to the chosen-room
Boolean for multi-mode slots and to model.NewConstant(1) for single-mode
slots. __apply_same_room_for_activities_constraint filters the dict by
client and uid, sorts both lists by room id (Python sort is stable and
ascending) and equates the Booleans pairwise along the zip. -/

/-- The rooms-dict entries of one slot (solver_v2.py:373 and 387). -/
def slotRoomEntries (c : Nat) (u : String) : Slot → List ((Nat × String × String) × RVal)
  | [] => []
  | [mo] => [((c, u, mo.room_id), RVal.one)]
  | mos => mos.map fun mo => ((c, u, mo.room_id), RVal.var (BVar.room c u mo.room_id))

/-- The rooms dict in insertion order: per client, per slot, per mode. -/
def roomsDict : Nat → List USchedule → List ((Nat × String × String) × RVal)
  | _, [] => []
  | c, sched :: rest =>
    (sched.flatMap fun p => slotRoomEntries c p.2 p.1) ++ roomsDict (c + 1) rest

/-- The (room_id, value) pairs of one client and activity uid
(solver_v2.py:959-960). -/
def roomsForClientActivity (rooms : List ((Nat × String × String) × RVal))
    (c : Nat) (u : String) : List (String × RVal) :=
  rooms.filterMap fun e =>
    if e.1.1 = c ∧ e.1.2.1 = u then some (e.1.2.2, e.2) else none

/-- Lexicographic code-point comparison of char lists (Python string
ordering). -/
def charListLe : List Char → List Char → Bool
  | [], _ => true
  | _ :: _, [] => false
  | a :: as, b :: bs =>
    if a.toNat < b.toNat then true
    else if b.toNat < a.toNat then false
    else charListLe as bs

/-- Lexicographic string comparison by code points. -/
def strLe (a b : String) : Bool := charListLe a.data b.data

/-- Stable insertion into a room list sorted ascending by room id. -/
def insertRoom (x : String × RVal) : List (String × RVal) → List (String × RVal)
  | [] => [x]
  | y :: ys => if strLe x.1 y.1 then x :: y :: ys else y :: insertRoom x ys

/-- Stable ascending sort by room id (list.sort at solver_v2.py:963-964). -/
def sortRooms : List (String × RVal) → List (String × RVal)
  | [] => []
  | x :: xs => insertRoom x (sortRooms xs)

/-- __apply_same_room_for_activities_constraint: assert equal candidate
counts (solver_v2.py:962), then equate the chosen-room Booleans pairwise
along the zip of the two sorted lists (solver_v2.py:966-967). -/
def sameRoomForActivities (rooms : List ((Nat × String × String) × RVal))
    (c : Nat) (a b : String) : Except String (List Constr) :=
  if (roomsForClientActivity rooms c a).length ≠ (roomsForClientActivity rooms c b).length
  then Except.error "Invalid number of rooms for same room constraint"
  else
    Except.ok (((sortRooms (roomsForClientActivity rooms c a)).zip
        (sortRooms (roomsForClientActivity rooms c b))).map
      fun z => Constr.boolEq [] z.1.2 z.2.2)

/-- Claim C6: for each client and each of the pairs check-in/lunch,
check-in/checkout and first-consult/final-consult, when the emitted
same-room constraints are satisfied and the two sorted candidate room id
lists coincide without duplicates, the chosen-room value of one activity
equals the chosen-room value of the other for every candidate room. -/
theorem claim_c6 (l : List USchedule) (σ : Assign) (ci lunch co fc fin : String)
    (c : Nat) (a b : String)
    (_hpair : (a, b) ∈ [(ci, lunch), (ci, co), (fc, fin)])
    (cs : List Constr)
    (hok : sameRoomForActivities (roomsDict 0 l) c a b = Except.ok cs)
    (hsat : satisfies σ cs = true)
    (hkeys : (sortRooms (roomsForClientActivity (roomsDict 0 l) c a)).map Prod.fst =
      (sortRooms (roomsForClientActivity (roomsDict 0 l) c b)).map Prod.fst)
    (hnd : ((sortRooms (roomsForClientActivity (roomsDict 0 l) c a)).map Prod.fst).Nodup) :
    ∀ r v1 v2, (r, v1) ∈ sortRooms (roomsForClientActivity (roomsDict 0 l) c a) →
      (r, v2) ∈ sortRooms (roomsForClientActivity (roomsDict 0 l) c b) →
      evalRV σ v1 = evalRV σ v2 := by
  intro r v1 v2 h1 h2
  unfold sameRoomForActivities at hok
  by_cases hl : (roomsForClientActivity (roomsDict 0 l) c a).length ≠
      (roomsForClientActivity (roomsDict 0 l) c b).length
  · rw [if_pos hl] at hok
    exact absurd hok (by simp)
  · rw [if_neg hl] at hok
    injection hok with hcs
    obtain ⟨k1, hk1, hA1⟩ := List.mem_iff_getElem.mp h1
    obtain ⟨k2, hk2, hB2⟩ := List.mem_iff_getElem.mp h2
    have hlen : (sortRooms (roomsForClientActivity (roomsDict 0 l) c a)).length =
        (sortRooms (roomsForClientActivity (roomsDict 0 l) c b)).length := by
      have h := congrArg List.length hkeys
      simpa using h
    have hmk1 : k1 < ((sortRooms (roomsForClientActivity (roomsDict 0 l) c a)).map
        Prod.fst).length := by simpa using hk1
    have hmk2 : k2 < ((sortRooms (roomsForClientActivity (roomsDict 0 l) c b)).map
        Prod.fst).length := by simpa using hk2
    have hr1 : ((sortRooms (roomsForClientActivity (roomsDict 0 l) c a)).map
        Prod.fst)[k1] = r := by rw [List.getElem_map, hA1]
    have hr2 : ((sortRooms (roomsForClientActivity (roomsDict 0 l) c b)).map
        Prod.fst)[k2] = r := by rw [List.getElem_map, hB2]
    rw [hkeys] at hnd
    have hmk1B : k1 < ((sortRooms (roomsForClientActivity (roomsDict 0 l) c b)).map
        Prod.fst).length := by rw [← hkeys]; exact hmk1
    have hq1 : ((sortRooms (roomsForClientActivity (roomsDict 0 l) c a)).map
        Prod.fst)[k1]? = some r := by
      rw [List.getElem?_eq_getElem hmk1, hr1]
    rw [hkeys] at hq1
    have hsome := List.getElem?_eq_getElem hmk1B
    rw [hq1] at hsome
    injection hsome with h3
    have hget : ((sortRooms (roomsForClientActivity (roomsDict 0 l) c b)).map
        Prod.fst)[k1] =
        ((sortRooms (roomsForClientActivity (roomsDict 0 l) c b)).map Prod.fst)[k2] := by
      rw [hr2, ← h3]
    have hkk : k1 = k2 := hnd.getElem_inj_iff.mp hget
    subst hkk
    have hk1b : k1 < (sortRooms (roomsForClientActivity (roomsDict 0 l) c b)).length := by
      omega
    have hzlen : k1 < ((sortRooms (roomsForClientActivity (roomsDict 0 l) c a)).zip
        (sortRooms (roomsForClientActivity (roomsDict 0 l) c b))).length := by
      rw [List.length_zip]
      exact lt_min_iff.mpr ⟨hk1, hk1b⟩
    have hmaplen : k1 < ((((sortRooms (roomsForClientActivity (roomsDict 0 l) c a)).zip
        (sortRooms (roomsForClientActivity (roomsDict 0 l) c b))).map
      fun z => Constr.boolEq [] z.1.2 z.2.2).length) := by simpa using hzlen
    have hcmem : Constr.boolEq [] v1 v2 ∈ cs := by
      rw [← hcs]
      have hval : ((((sortRooms (roomsForClientActivity (roomsDict 0 l) c a)).zip
          (sortRooms (roomsForClientActivity (roomsDict 0 l) c b))).map
        fun z => Constr.boolEq [] z.1.2 z.2.2))[k1] = Constr.boolEq [] v1 v2 := by
        rw [List.getElem_map, List.getElem_zip, hA1, hB2]
      rw [← hval]
      exact List.getElem_mem hmaplen
    exact boolEq_of (satisfies_mem hsat hcmem) rfl

/-- Witness mode for claim C6. -/
def c6Mode (u r : String) : ActivityMode :=
  ⟨some 10, u, r, 0, 0, ClientSex.MALE, ClientType.OPTIMAL, ClientMaritalType.SINGLE⟩

/-- Witness schedule for claim C6: one client whose check-in and lunch
slots each offer rooms r1 and r2. -/
def c6List : List USchedule :=
  [[([c6Mode "ci" "r1", c6Mode "ci" "r2"], "ci"),
    ([c6Mode "lu" "r1", c6Mode "lu" "r2"], "lu")]]

/-- Witness assignment for claim C6: room r1 is chosen for both check-in
and lunch. -/
def c6Assign : Assign :=
  ⟨fun _ => 0,
   fun b => match b with
    | .room 0 "ci" "r1" => true
    | .room 0 "lu" "r1" => true
    | _ => false⟩

/-- Witness for claim C6: on the concrete schedule the chosen-room
Boolean of check-in equals that of lunch for room r1. -/
theorem claim_c6_witness :
    evalRV c6Assign (RVal.var (BVar.room 0 "ci" "r1")) =
      evalRV c6Assign (RVal.var (BVar.room 0 "lu" "r1")) := by
  have h := claim_c6 c6List c6Assign "ci" "lu" "co" "fc" "fin" 0 "ci" "lu"
    (by decide) _ rfl (by decide) (by decide) (by decide)
  exact h "r1" _ _ (by decide) (by decide)

/-! ### Couple pairing (solver_v2.py:216-221, 340-349, 427-432, 969-987) -/

/-- __apply_same_room_for_clients_constraint: filter the rooms dict by
each of the two clients and the activity, assert equal candidate counts
(solver_v2.py:982), sort both lists by room id and equate the chosen-room
values pairwise along the zip (solver_v2.py:986-987). -/
def sameRoomForClients (rooms : List ((Nat × String × String) × RVal))
    (c1 c2 : Nat) (u : String) : Except String (List Constr) :=
  if (roomsForClientActivity rooms c1 u).length ≠ (roomsForClientActivity rooms c2 u).length
  then Except.error "Invalid number of rooms for same room constraint"
  else
    Except.ok (((sortRooms (roomsForClientActivity rooms c1 u)).zip
        (sortRooms (roomsForClientActivity rooms c2 u))).map
      fun z => Constr.boolEq [] z.1.2 z.2.2)

/-- Satisfying the pairwise equalities along the zip of two key-sorted
room lists with identical duplicate-free key columns equates the values
room by room. -/
lemma zipSort_pairing (σ : Assign) (A B : List (String × RVal)) (cs : List Constr)
    (hcs : (A.zip B).map (fun z => Constr.boolEq [] z.1.2 z.2.2) = cs)
    (hsat : satisfies σ cs = true)
    (hkeys : A.map Prod.fst = B.map Prod.fst)
    (hnd : (A.map Prod.fst).Nodup) :
    ∀ r v1 v2, (r, v1) ∈ A → (r, v2) ∈ B → evalRV σ v1 = evalRV σ v2 := by
  intro r v1 v2 h1 h2
  obtain ⟨k1, hk1, hA1⟩ := List.mem_iff_getElem.mp h1
  obtain ⟨k2, hk2, hB2⟩ := List.mem_iff_getElem.mp h2
  have hlen : A.length = B.length := by
    have h := congrArg List.length hkeys
    simpa using h
  have hmk1 : k1 < (A.map Prod.fst).length := by simpa using hk1
  have hmk2 : k2 < (B.map Prod.fst).length := by simpa using hk2
  have hr1 : (A.map Prod.fst)[k1] = r := by rw [List.getElem_map, hA1]
  have hr2 : (B.map Prod.fst)[k2] = r := by rw [List.getElem_map, hB2]
  rw [hkeys] at hnd
  have hmk1B : k1 < (B.map Prod.fst).length := by rw [← hkeys]; exact hmk1
  have hq1 : (A.map Prod.fst)[k1]? = some r := by
    rw [List.getElem?_eq_getElem hmk1, hr1]
  rw [hkeys] at hq1
  have hsome := List.getElem?_eq_getElem hmk1B
  rw [hq1] at hsome
  injection hsome with h3
  have hget : (B.map Prod.fst)[k1] = (B.map Prod.fst)[k2] := by rw [hr2, ← h3]
  have hkk : k1 = k2 := hnd.getElem_inj_iff.mp hget
  subst hkk
  have hk1b : k1 < B.length := by omega
  have hzlen : k1 < (A.zip B).length := by
    rw [List.length_zip]
    exact lt_min_iff.mpr ⟨hk1, hk1b⟩
  have hmaplen : k1 < (((A.zip B).map fun z => Constr.boolEq [] z.1.2 z.2.2).length) := by
    simpa using hzlen
  have hcmem : Constr.boolEq [] v1 v2 ∈ cs := by
    rw [← hcs]
    have hval : (((A.zip B).map fun z => Constr.boolEq [] z.1.2 z.2.2))[k1] =
        Constr.boolEq [] v1 v2 := by
      rw [List.getElem_map, List.getElem_zip, hA1, hB2]
    rw [← hval]
    exact List.getElem_mem hmaplen
  exact boolEq_of (satisfies_mem hsat hcmem) rfl

/-- Claim C7: for a couple pair at consecutive client ids (k, k+1) — the
pair recognised by the solver's own second-partner test — the partners
carry the same coupleClientNo, are assigned the same check-in room for
every candidate room, have equal check-in starts, and no couple schedule
ever offers a SINGLE_CLIENT room. -/
theorem claim_c7 (oracle : Nat → Nat) (nd : Nat) (rm : String → List Resource)
    (ct : ClientType) (acts : List (List Activity)) (counts : ClientCount)
    (ciName : String) (l : List (ClientScenario × USchedule)) (σ : Assign)
    (cs : List Constr) (k : Nat) (hk : k + 1 < l.length)
    (hscens : l.map Prod.fst = (runAssessment oracle nd rm ct acts counts ⟨0, 0, 0⟩).1)
    (hcnt : ∀ pair ∈ l, countCheckIn ciName pair.2 = 1)
    (hsat : satisfies σ (checkInChain ciName 0 none none l) = true)
    (hpair : eqStepB (prevCoupleAt none (l.map Prod.fst) (k + 1)) (l.get ⟨k + 1, hk⟩).1)
    (hok : sameRoomForClients (roomsDict 0 (l.map Prod.snd)) k (k + 1) ciName =
      Except.ok cs)
    (hsat2 : satisfies σ cs = true)
    (hkeys : (sortRooms (roomsForClientActivity (roomsDict 0 (l.map Prod.snd)) k
        ciName)).map Prod.fst =
      (sortRooms (roomsForClientActivity (roomsDict 0 (l.map Prod.snd)) (k + 1)
        ciName)).map Prod.fst)
    (hnd : ((sortRooms (roomsForClientActivity (roomsDict 0 (l.map Prod.snd)) k
        ciName)).map Prod.fst).Nodup) :
    ((l.get ⟨k, by omega⟩).1.couple_client_no = (l.get ⟨k + 1, hk⟩).1.couple_client_no ∧
      (l.get ⟨k, by omega⟩).1.type = ClientMaritalType.COUPLE ∧
      (l.get ⟨k + 1, hk⟩).1.type = ClientMaritalType.COUPLE) ∧
    (∀ r v1 v2,
      (r, v1) ∈ sortRooms (roomsForClientActivity (roomsDict 0 (l.map Prod.snd)) k
        ciName) →
      (r, v2) ∈ sortRooms (roomsForClientActivity (roomsDict 0 (l.map Prod.snd)) (k + 1)
        ciName) →
      evalRV σ v1 = evalRV σ v2) ∧
    σ.iv (.start (k + 1) ciName) = σ.iv (.start k ciName) ∧
    NoSingleRoomsForCouples rm (runAssessment oracle nd rm ct acts counts ⟨0, 0, 0⟩).2.1 := by
  obtain ⟨_, _, _, _, _, _, hwp0, _, hns, _⟩ :=
    materializeAssessment_spec oracle nd rm ct acts (numClients counts) counts ⟨0, 0, 0⟩
      (runAssessment oracle nd rm ct acts counts ⟨0, 0, 0⟩).1
      (runAssessment oracle nd rm ct acts counts ⟨0, 0, 0⟩).2.1
      (runAssessment oracle nd rm ct acts counts ⟨0, 0, 0⟩).2.2
      (by unfold numPicks numClients; omega) rfl
  have hwp : WellPaired (l.map Prod.fst) := by rw [hscens]; exact hwp0
  have hk' : k + 1 < (l.map Prod.fst).length := by simpa using hk
  have hget1 : (l.map Prod.fst).get ⟨k + 1, hk'⟩ = (l.get ⟨k + 1, hk⟩).1 := by simp
  have hget0 : (l.map Prod.fst).get ⟨k, by omega⟩ = (l.get ⟨k, by omega⟩).1 := by simp
  have he' : eqStepB (prevCoupleAt none (l.map Prod.fst) (k + 1))
      ((l.map Prod.fst).get ⟨k + 1, hk'⟩) := by rw [hget1]; exact hpair
  obtain ⟨ha1, ha2, ha3⟩ := eqStep_second_partner hwp k hk' he'
  rw [hget0] at ha1 ha2
  rw [hget1] at ha2 ha3
  refine ⟨⟨ha2, ha1, ha3⟩, ?_, ?_, hns⟩
  · unfold sameRoomForClients at hok
    by_cases hl : (roomsForClientActivity (roomsDict 0 (l.map Prod.snd)) k
        ciName).length ≠ (roomsForClientActivity (roomsDict 0 (l.map Prod.snd)) (k + 1)
        ciName).length
    · rw [if_pos hl] at hok
      exact absurd hok (by simp)
    · rw [if_neg hl] at hok
      injection hok with hcs
      exact zipSort_pairing σ _ _ cs hcs hsat2 hkeys hnd
  · have hsteps := (checkInChain_steps ciName σ l 0 none none hcnt hsat).2 k hk
    have h := hsteps.1 hpair
    simpa using h

/-- Witness counts for claim C7: one male-male couple. -/
def c7Counts : ClientCount := { couple_male_male := 1 }

/-- Witness client list for claim C7: the materializer's two couple
partners, each with a single-mode check-in slot in room r1. -/
def c7List : List (ClientScenario × USchedule) :=
  [(⟨0, ClientType.OPTIMAL, ClientMaritalType.COUPLE, ClientSex.MALE, none, some 0⟩,
    [([c6Mode "ci" "r1"], "ci")]),
   (⟨1, ClientType.OPTIMAL, ClientMaritalType.COUPLE, ClientSex.MALE, none, some 0⟩,
    [([c6Mode "ci" "r1"], "ci")])]

/-- Witness assignment for claim C7: both partners check in at 0. -/
def c7Assign : Assign := ⟨fun _ => 0, fun _ => false⟩

/-- Witness for claim C7 on the concrete one-couple instance. -/
theorem claim_c7_witness :
    ((c7List.get ⟨0, by decide⟩).1.couple_client_no =
        (c7List.get ⟨1, by decide⟩).1.couple_client_no ∧
      (c7List.get ⟨0, by decide⟩).1.type = ClientMaritalType.COUPLE ∧
      (c7List.get ⟨1, by decide⟩).1.type = ClientMaritalType.COUPLE) ∧
    evalRV c7Assign RVal.one = evalRV c7Assign RVal.one ∧
    c7Assign.iv (.start 1 "ci") = c7Assign.iv (.start 0 "ci") ∧
    NoSingleRoomsForCouples (fun _ => [])
      (runAssessment (fun _ => 0) 0 (fun _ => []) ClientType.OPTIMAL [] c7Counts
        ⟨0, 0, 0⟩).2.1 := by
  have h := claim_c7 (fun _ => 0) 0 (fun _ => []) ClientType.OPTIMAL [] c7Counts
    "ci" c7List c7Assign _ 0 (by decide) (by decide) (by decide) (by decide)
    (by decide) rfl (by decide) (by decide) (by decide)
  exact ⟨h.1, h.2.1 "r1" RVal.one RVal.one (by decide) (by decide), h.2.2.1, h.2.2.2⟩

/-! ### WITHIN/TIME activity conditions (solver_v2.py:599-745, 894-906) -/

/-- The TIME criteria value conversion of solver_v2.py:681-689 followed by
the minute conversion of solver_v2.py:904: one colon parses as H:M via
strptime (which validates hour and minute ranges) giving H*60+M minutes,
no colon parses as a plain minute count; two or more colons leave the
value a string, which __apply_within_after_activity_constraint cannot
consume. -/
def conditionTimeDelta (v : String) : Option Int :=
  match countColons v with
  | 0 => (strToNat v).map Int.ofNat
  | 1 =>
    match splitColons v.data with
    | [h, m] =>
      match digitsToNat h, digitsToNat m with
      | some hn, some mn =>
        if hn < 24 ∧ mn < 60 then some (Int.ofNat (hn * 60 + mn)) else none
      | _, _ => none
    | _ => none
  | _ => none

/-- __apply_within_after_activity_constraint (solver_v2.py:903-906):
start[a] ≥ end[other] and start[a] ≤ start[other] + Δ. -/
def withinAfterActivity (c : Nat) (a other : String) (delta : Int) : List Constr :=
  [Constr.lin [] (.var (.endv c other)) .le (.var (.start c a)),
   Constr.lin [] (.var (.start c a)) .le (.add (.var (.start c other)) (.const delta))]

/-- Outcome of processing one activity condition of the dispatch loop. -/
inductive CondResult where
  | skipped
  | errored (msg : String)
  | emitted (cs : List Constr)
  | dispatched
deriving DecidableEq, Repr

/-- One iteration of the condition dispatch of
Solver.__apply_activity_constraints for one client: the deleted /
mandatory / enabled guards (solver_v2.py:621-628), the type and activity
id checks with uid resolution (630-639), the criteria validations
(641-657), and the branch on the condition type where WITHIN always
anchors at the check-in activity (731-733); non-WITHIN types go to their
own emitters (dispatched). -/
def applyActivityCondition (uids : String → Option String) (startActId : String)
    (c : Nat) (cond : Condition) : CondResult :=
  if cond.deleted then .skipped
  else if cond.mandatory = false then .skipped
  else if cond.enabled = false then .skipped
  else
    match cond.type with
    | none => .errored "Invalid condition type"
    | some ctype =>
      match cond.activity_id with
      | none => .errored "Invalid condition activity id"
      | some rawId =>
        match uids rawId with
        | none => .skipped
        | some a =>
          if cond.criteria.value = none ∧ cond.criteria.between_values.start = none ∧
              cond.criteria.between_values.endv = none then
            .errored "Invalid condition criteria value"
          else if cond.criteria.value = none ∧
              (cond.criteria.between_values.start = none ∨
                cond.criteria.between_values.endv = none) then
            .errored "Invalid condition criteria between values"
          else
            match ctype with
            | ConditionTypes.WITHIN =>
              match cond.criteria.criteria_type with
              | CriteriaTypes.TIME =>
                match cond.criteria.value with
                | none => .errored "TypeError: not a timedelta"
                | some v =>
                  match conditionTimeDelta v with
                  | none => .errored "TypeError: not a timedelta"
                  | some d => .emitted (withinAfterActivity c a startActId d)
              | _ => .errored "TypeError: not a timedelta"
            | _ => .dispatched

/-- Claim C4: a mandatory enabled WITHIN/TIME condition with duration Δ on
activity a compiles to constraints anchored at the check-in activity —
start[a] ≥ end[check_in] and start[a] ≤ start[check_in] + Δ — and any
satisfying assignment obeys those two inequalities. -/
theorem claim_c4 (uids : String → Option String) (startActId : String) (c : Nat)
    (cond : Condition) (raw a v : String) (d : Int) (σ : Assign)
    (hdel : cond.deleted = false) (hman : cond.mandatory = true)
    (hen : cond.enabled = true)
    (hty : cond.type = some ConditionTypes.WITHIN)
    (hcrit : cond.criteria.criteria_type = CriteriaTypes.TIME)
    (haid : cond.activity_id = some raw) (hres : uids raw = some a)
    (hv : cond.criteria.value = some v) (hd : conditionTimeDelta v = some d) :
    applyActivityCondition uids startActId c cond =
      CondResult.emitted (withinAfterActivity c a startActId d) ∧
    (satisfies σ (withinAfterActivity c a startActId d) = true →
      σ.iv (.endv c startActId) ≤ σ.iv (.start c a) ∧
      σ.iv (.start c a) ≤ σ.iv (.start c startActId) + d) := by
  constructor
  · simp [applyActivityCondition, hdel, hman, hen, hty, haid, hres, hcrit, hv, hd]
  · intro hsat
    have h1 : evalConstr σ (Constr.lin [] (.var (.endv c startActId)) .le
        (.var (.start c a))) = true :=
      satisfies_mem hsat (by simp [withinAfterActivity])
    have h2 : evalConstr σ (Constr.lin [] (.var (.start c a)) .le
        (.add (.var (.start c startActId)) (.const d))) = true :=
      satisfies_mem hsat (by simp [withinAfterActivity])
    exact ⟨by simpa [evalE] using lin_le_of h1 rfl,
      by simpa [evalE] using lin_le_of h2 rfl⟩

/-- Witness condition for claim C4: mandatory, enabled WITHIN/TIME with
value 1:30 (90 minutes). -/
def c4Cond : Condition :=
  { deleted := false, condition_id := "cd1", activity_id := some "act1",
    assessment_id := "as1", type := some ConditionTypes.WITHIN,
    enabled := true, mandatory := true,
    criteria := { criteria_type := CriteriaTypes.TIME,
                  between_values := {}, value := some "1:30" } }

/-- Witness assignment for claim C4: check-in runs 50-95, activity a
starts at 100. -/
def c4Assign : Assign :=
  ⟨fun x => match x with
    | .start _ "a" => 100
    | .endv _ "ci" => 95
    | .start _ "ci" => 50
    | _ => 0,
   fun _ => false⟩

/-- Witness for claim C4 at the concrete WITHIN/TIME condition. -/
theorem claim_c4_witness :
    applyActivityCondition (fun s => if s = "act1" then some "a" else none) "ci" 0
      c4Cond = CondResult.emitted (withinAfterActivity 0 "a" "ci" 90) ∧
    (c4Assign.iv (.endv 0 "ci") ≤ c4Assign.iv (.start 0 "a") ∧
      c4Assign.iv (.start 0 "a") ≤ c4Assign.iv (.start 0 "ci") + 90) := by
  have h := claim_c4 (fun s => if s = "act1" then some "a" else none) "ci" 0 c4Cond
    "act1" "a" "1:30" 90 c4Assign rfl rfl rfl rfl rfl rfl (by decide) rfl (by decide)
  exact ⟨h.1, h.2 (by decide)⟩

end HarleySolver
